import Mathlib

/-!
Verification of the JSON-Patch core (src/module/core.mjs and src/src/helpers.ts).

The embedding models the JavaScript data that the library manipulates:
JSON documents extended with the JS-specific values `undefined` and the
NaN number class, since the library's deep-equality and deep-clone
primitives treat them specially.  Exceptions are modelled with `Except`,
distinguishing `JsonPatchError` instances (by their `name` discriminant)
from host `TypeError`s (the prototype-pollution guard and property
accesses through `undefined`/`null`).

JavaScript reference/aliasing behaviour is modelled by threading, through
every operation, the value observed through the caller's original
document reference after the call ("caller document"): in-place mutation
makes it the updated tree, while the clone-before-traversal discipline
(`mutateDocument = false`) leaves it at the pre-call value.
-/

set_option maxHeartbeats 1000000

deriving instance DecidableEq for Except

namespace JsonPatch

mutual
/-- A JavaScript value as manipulated by the library: the JSON data model
plus `undefined` and the NaN number class.  Arrays and objects carry their
own list types so that structural recursion stays mutual. -/
inductive JVal : Type where
  | undef
  | null
  | bool (b : Bool)
  | num (n : Int)
  | nan
  | str (s : String)
  | arr (xs : JList)
  | obj (kvs : JMap)
deriving DecidableEq

inductive JList : Type where
  | nil
  | cons (hd : JVal) (tl : JList)
deriving DecidableEq

inductive JMap : Type where
  | nil
  | cons (k : String) (v : JVal) (tl : JMap)
deriving DecidableEq
end

namespace JList

/-- Build a `JList` from a Lean list (used to write concrete documents). -/
def ofList : List JVal → JList
  | [] => .nil
  | v :: vs => .cons v (ofList vs)

def length : JList → Nat
  | .nil => 0
  | .cons _ tl => 1 + tl.length

def get? : JList → Nat → Option JVal
  | .nil, _ => none
  | .cons hd _, 0 => some hd
  | .cons _ tl, n + 1 => tl.get? n

/-- Replace the element at index `n` (no-op when out of range). -/
def set : JList → Nat → JVal → JList
  | .nil, _, _ => .nil
  | .cons _ tl, 0, v => .cons v tl
  | .cons hd tl, n + 1, v => .cons hd (tl.set n v)

/-- Insert `v` so that it gets index `n` (appends when `n ≥ length`),
matching `Array.prototype.splice(n, 0, v)` with a non-negative start. -/
def insertAt : JList → Nat → JVal → JList
  | xs, 0, v => .cons v xs
  | .nil, _ + 1, v => .cons v .nil
  | .cons hd tl, n + 1, v => .cons hd (tl.insertAt n v)

/-- Remove the element at index `n` (no-op when out of range),
matching `Array.prototype.splice(n, 1)` with a non-negative start. -/
def removeAt : JList → Nat → JList
  | .nil, _ => .nil
  | .cons _ tl, 0 => tl
  | .cons hd tl, n + 1 => .cons hd (tl.removeAt n)

/-- `n` copies of `undefined`: the holes of `new Array(n)`. -/
def replicateUndef : Nat → JList
  | 0 => .nil
  | n + 1 => .cons .undef (replicateUndef n)

end JList

namespace JMap

/-- Build a `JMap` from a Lean association list. -/
def ofList : List (String × JVal) → JMap
  | [] => .nil
  | (k, v) :: kvs => .cons k v (ofList kvs)

def length : JMap → Nat
  | .nil => 0
  | .cons _ _ tl => 1 + tl.length

/-- First binding for `k`, if any (`none` means the key is absent, which JS
distinguishes from a present binding to `undefined`). -/
def lookup : JMap → String → Option JVal
  | .nil, _ => none
  | .cons k v tl, key => if k = key then some v else tl.lookup key

/-- Own-property check, `Object.prototype.hasOwnProperty`. -/
def hasKey (m : JMap) (key : String) : Bool := (m.lookup key).isSome

/-- JS property assignment on a plain object: an existing key keeps its
position, a new key is appended in insertion order. -/
def set : JMap → String → JVal → JMap
  | .nil, key, v => .cons key v .nil
  | .cons k w tl, key, v =>
    if k = key then .cons k v tl else .cons k w (tl.set key v)

/-- The `delete` operator: removes the first binding of the key. -/
def delete : JMap → String → JMap
  | .nil, _ => .nil
  | .cons k w tl, key => if k = key then tl else .cons k w (tl.delete key)

end JMap

/-- Convenience constructor for array documents. -/
def JVal.arrL (xs : List JVal) : JVal := .arr (JList.ofList xs)

/-- Convenience constructor for object documents. -/
def JVal.objL (kvs : List (String × JVal)) : JVal := .obj (JMap.ofList kvs)

/-! ### String primitives

`String.prototype.split('/')`, `Array.prototype.join('/')`, the `~0`/`~1`
pointer unescaping of `helpers.ts`, and the digit-string recognizer
`isInteger`.  They are implemented over `String.data` character lists so
that all proofs can proceed by list induction. -/

/-- Split a character list on `'/'`; splitting the empty string yields one
empty piece, as `''.split('/')` does. -/
def splitSlashChars : List Char → List (List Char)
  | [] => [[]]
  | c :: cs =>
    let rest := splitSlashChars cs
    if c = '/' then [] :: rest
    else
      match rest with
      | [] => [[c]]
      | hd :: tl => (c :: hd) :: tl

/-- `path.split('/')`. -/
def splitSlash (s : String) : List String :=
  (splitSlashChars s.data).map (fun cs => ⟨cs⟩)

/-- `components.join('/')`. -/
def joinSlash : List String → String
  | [] => ""
  | [s] => s
  | s :: rest => s ++ "/" ++ joinSlash rest

/-- First pass of `unescapePathComponent`: global replace of `~1` by `/`. -/
def unescTilde1 : List Char → List Char
  | '~' :: '1' :: rest => '/' :: unescTilde1 rest
  | c :: rest => c :: unescTilde1 rest
  | [] => []

/-- Second pass of `unescapePathComponent`: global replace of `~0` by `~`. -/
def unescTilde0 : List Char → List Char
  | '~' :: '0' :: rest => '~' :: unescTilde0 rest
  | c :: rest => c :: unescTilde0 rest
  | [] => []

/-- `unescapePathComponent` from helpers.ts: `~1` → `/` then `~0` → `~`. -/
def unescapePathComponent (s : String) : String :=
  ⟨unescTilde0 (unescTilde1 s.data)⟩

/-- `isInteger` from helpers.ts: every character code is in 48..57.  The
empty string vacuously passes, and leading zeros are accepted. -/
def isInteger (s : String) : Bool :=
  s.data.all (fun c => 48 ≤ c.toNat && c.toNat ≤ 57)

/-- Numeric value of an all-digit string (the empty string gives 0). -/
def digitsToNat (s : String) : Nat :=
  s.data.foldl (fun a c => a * 10 + (c.toNat - 48)) 0

/-- `ToInt32` wrap-around, used to model the `~~` coercion. -/
def toInt32 (n : Nat) : Int :=
  let m := n % 4294967296
  if m < 2147483648 then (m : Int) else (m : Int) - 4294967296

/-- `~~str` for the strings the library feeds it: an all-digit string is
converted through `ToInt32`; other strings are modelled as 0 (JS would
first apply the full `ToNumber` grammar, whose extra numeric formats the
pointer components used here never take). -/
def tildeTildeStr (s : String) : Int :=
  if isInteger s then toInt32 (digitsToNat s) else 0

/-- Canonical array-index string: `"0"` or digits without a leading zero
(the 2^32-1 upper bound of JS array indices is not modelled). -/
def isCanonicalIndex (s : String) : Bool :=
  match s.data with
  | [] => false
  | c :: cs => isInteger s && (c ≠ '0' || cs.isEmpty)

/-- Decimal rendering of a natural number. -/
def natToString (n : Nat) : String :=
  ⟨go (n + 1) n []⟩
where
  go : Nat → Nat → List Char → List Char
    | 0, _, acc => acc
    | fuel + 1, n, acc =>
      if n < 10 then Char.ofNat (48 + n) :: acc
      else go fuel (n / 10) (Char.ofNat (48 + n % 10) :: acc)

/-- `Number.prototype.toString(10)`. -/
def intToString (i : Int) : String :=
  if i < 0 then "-" ++ natToString (-i).toNat else natToString i.toNat

/-- `isValidExtendedOpId` from helpers.ts: a string of length at least 3
starting with `x-` (`none` models a non-string `xid`). -/
def isValidExtendedOpId : Option String → Bool
  | none => false
  | some s =>
    decide (3 ≤ s.data.length) &&
      (match s.data with
       | 'x' :: '-' :: _ => true
       | _ => false)

/-! ### Errors and JS property access -/

/-- The `JsonPatchErrorName` discriminants of helpers.ts. -/
inductive ErrName : Type where
  | SEQUENCE_NOT_AN_ARRAY
  | OPERATION_NOT_AN_OBJECT
  | OPERATION_OP_INVALID
  | OPERATION_X_ARGS_NOT_ARRAY
  | OPERATION_X_OP_INVALID
  | OPERATION_X_CONFIG_INVALID
  | OPERATION_X_ID_INVALID
  | OPERATION_X_AMBIGUOUS_REMOVAL
  | OPERATION_PATH_INVALID
  | OPERATION_FROM_REQUIRED
  | OPERATION_VALUE_REQUIRED
  | OPERATION_VALUE_CANNOT_CONTAIN_UNDEFINED
  | OPERATION_PATH_CANNOT_ADD
  | OPERATION_PATH_UNRESOLVABLE
  | OPERATION_FROM_UNRESOLVABLE
  | OPERATION_PATH_ILLEGAL_ARRAY_INDEX
  | OPERATION_VALUE_OUT_OF_BOUNDS
  | TEST_OPERATION_FAILED
deriving DecidableEq

/-- A raised JS exception: a `JsonPatchError` carrying its `name`, or a
host `TypeError` (the prototype guard, property access through
`undefined`/`null`, strict-mode writes to primitives). -/
inductive JsErr : Type where
  | patch (name : ErrName)
  | typeError
deriving DecidableEq

/-- A property key as the dispatcher uses it: the raw string component, or
the number an array component was coerced to. -/
inductive JKey : Type where
  | s (k : String)
  | i (n : Int)
deriving DecidableEq

/-- JS truthiness. -/
def truthy : JVal → Bool
  | .undef => false
  | .null => false
  | .bool b => b
  | .num n => n != 0
  | .nan => false
  | .str s => s != ""
  | .arr _ => true
  | .obj _ => true

/-- `obj && typeof obj === 'object'`: a non-null array or object. -/
def truthyObject : JVal → Bool
  | .arr _ => true
  | .obj _ => true
  | _ => false

/-- One character as a string value. -/
def charStr (c : Char) : JVal := .str ⟨[c]⟩

/-- Property read `obj[key]`: throws `TypeError` on `undefined`/`null`,
yields `undefined` for a missing property, and models array/string
indexing and `length`. -/
def jsGet (v : JVal) (k : JKey) : Except JsErr JVal :=
  match v, k with
  | .undef, _ => .error .typeError
  | .null, _ => .error .typeError
  | .bool _, _ => .ok .undef
  | .num _, _ => .ok .undef
  | .nan, _ => .ok .undef
  | .str s, .s key =>
    if key = "length" then .ok (.num s.data.length)
    else if isCanonicalIndex key then
      match s.data.get? (digitsToNat key) with
      | some c => .ok (charStr c)
      | none => .ok .undef
    else .ok .undef
  | .str s, .i n =>
    if 0 ≤ n then
      match s.data.get? n.toNat with
      | some c => .ok (charStr c)
      | none => .ok .undef
    else .ok .undef
  | .arr xs, .i n =>
    if 0 ≤ n then .ok ((xs.get? n.toNat).getD .undef) else .ok .undef
  | .arr xs, .s key =>
    if key = "length" then .ok (.num xs.length)
    else if isCanonicalIndex key then .ok ((xs.get? (digitsToNat key)).getD .undef)
    else .ok .undef
  | .obj m, .s key => .ok ((m.lookup key).getD .undef)
  | .obj m, .i n => .ok ((m.lookup (intToString n)).getD .undef)

/-- Extend an array to index `n` with holes (`undefined`) and set `xs[n]`. -/
def JList.extendSet (xs : JList) (n : Nat) (v : JVal) : JList :=
  match xs, n with
  | .nil, 0 => .cons v .nil
  | .nil, m + 1 => .cons .undef (JList.extendSet .nil m v)
  | .cons _ tl, 0 => .cons v tl
  | .cons hd tl, m + 1 => .cons hd (JList.extendSet tl m v)

/-- Strict-mode property write `obj[key] = v`: throws `TypeError` on
`undefined`, `null` and primitives; named (non-index) properties of
arrays fall outside the JSON data model and are modelled as dropped. -/
def jsSet (o : JVal) (k : JKey) (v : JVal) : Except JsErr JVal :=
  match o, k with
  | .undef, _ => .error .typeError
  | .null, _ => .error .typeError
  | .bool _, _ => .error .typeError
  | .num _, _ => .error .typeError
  | .nan, _ => .error .typeError
  | .str _, _ => .error .typeError
  | .arr xs, .i n =>
    if n < 0 then .ok (.arr xs) else .ok (.arr (xs.extendSet n.toNat v))
  | .arr xs, .s key =>
    if isCanonicalIndex key then .ok (.arr (xs.extendSet (digitsToNat key) v))
    else .ok (.arr xs)
  | .obj m, .s key => .ok (.obj (m.set key v))
  | .obj m, .i n => .ok (.obj (m.set (intToString n) v))

/-- The `delete` operator: throws `TypeError` on `undefined`/`null`, is a
silent no-op on boxed primitives, removes an object key, and leaves a
hole in an array. -/
def jsDelete (o : JVal) (k : JKey) : Except JsErr JVal :=
  match o, k with
  | .undef, _ => .error .typeError
  | .null, _ => .error .typeError
  | .arr xs, .i n =>
    if 0 ≤ n ∧ n.toNat < xs.length then .ok (.arr (xs.set n.toNat .undef))
    else .ok (.arr xs)
  | .arr xs, .s key =>
    if isCanonicalIndex key then
      .ok (.arr (if digitsToNat key < xs.length then xs.set (digitsToNat key) .undef else xs))
    else .ok (.arr xs)
  | .obj m, .s key => .ok (.obj (m.delete key))
  | .obj m, .i n => .ok (.obj (m.delete (intToString n)))
  | v, _ => .ok v

/-- Write-back along a successfully traversed access path: rebuilds the
root with the subtree at `steps` replaced, which is how an in-place JS
mutation of an aliased subtree reads through the root reference. -/
def setAtD (root : JVal) (steps : List JKey) (v : JVal) : JVal :=
  match steps with
  | [] => v
  | k :: rest =>
    match jsGet root k with
    | .ok child => ((jsSet root k (setAtD child rest v)).toOption).getD root
    | .error _ => root

/-! ### Deep equality and deep clone -/

mutual
/-- `_areEquals` from core.mjs (fast-deep-equal): the `a === b` shortcut,
then structural comparison — order- and length-sensitive for arrays,
key-set plus pairwise comparison for objects — and finally the
`a !== a && b !== b` rule that makes two NaN-class values equal. -/
def _areEquals (a b : JVal) : Bool :=
  if a = b then true
  else
    match a, b with
    | .arr xs, .arr ys => xs.length = ys.length && areEqList xs ys
    | .obj ka, .obj kb =>
      ka.length = kb.length && hasKeysOf ka kb && areEqMapVals ka kb
    | _, _ => false

/-- Pairwise `_areEquals` over array elements. -/
def areEqList : JList → JList → Bool
  | .nil, _ => true
  | .cons _ _, .nil => false
  | .cons x xs, .cons y ys => _areEquals x y && areEqList xs ys

/-- Every key of `a` is an own property of `b`. -/
def hasKeysOf : JMap → JMap → Bool
  | .nil, _ => true
  | .cons k _ tl, b => b.hasKey k && hasKeysOf tl b

/-- For every binding of `a`, `_areEquals(a[key], b[key])`. -/
def areEqMapVals : JMap → JMap → Bool
  | .nil, _ => true
  | .cons k v tl, b => _areEquals v ((b.lookup k).getD .undef) && areEqMapVals tl b
end

mutual
/-- The value part of one `JSON.parse(JSON.stringify(·))` round trip:
NaN serializes to `null`; `undefined` is reported as dropped (`none`),
which becomes `null` inside arrays and a removed key inside objects. -/
def jclean : JVal → Option JVal
  | .undef => none
  | .nan => some .null
  | .arr xs => some (.arr (jcleanList xs))
  | .obj m => some (.obj (jcleanMap m))
  | v => some v

/-- Round trip of array elements: dropped values become `null`. -/
def jcleanList : JList → JList
  | .nil => .nil
  | .cons v tl => .cons ((jclean v).getD .null) (jcleanList tl)

/-- Round trip of object bindings: dropped values lose their key. -/
def jcleanMap : JMap → JMap
  | .nil => .nil
  | .cons k v tl =>
    match jclean v with
    | none => jcleanMap tl
    | some w => .cons k w (jcleanMap tl)
end

/-- `_deepClone` from helpers.ts: objects (including `null`) go through a
JSON serialization round trip, `undefined` becomes `null`, and every other
primitive — the NaN class included — is returned unchanged. -/
def _deepClone (v : JVal) : JVal :=
  match v with
  | .arr _ => (jclean v).getD .null
  | .obj _ => (jclean v).getD .null
  | .null => .null
  | .undef => .null
  | x => x

mutual
/-- `hasUndefined` from helpers.ts: a value is, or recursively contains,
`undefined` (only arrays and objects are traversed). -/
def hasUndefined : JVal → Bool
  | .undef => true
  | .arr xs => hasUndefinedList xs
  | .obj m => hasUndefinedMap m
  | _ => false

def hasUndefinedList : JList → Bool
  | .nil => false
  | .cons v tl => hasUndefined v || hasUndefinedList tl

def hasUndefinedMap : JMap → Bool
  | .nil => false
  | .cons _ v tl => hasUndefined v || hasUndefinedMap tl
end

mutual
/-- No NaN-class value and no `undefined` anywhere: exactly the values on
which a serialization round trip is the identity. -/
def cloneFaithful : JVal → Bool
  | .undef => false
  | .nan => false
  | .arr xs => cloneFaithfulList xs
  | .obj m => cloneFaithfulMap m
  | _ => true

def cloneFaithfulList : JList → Bool
  | .nil => true
  | .cons v tl => cloneFaithful v && cloneFaithfulList tl

def cloneFaithfulMap : JMap → Bool
  | .nil => true
  | .cons _ v tl => cloneFaithful v && cloneFaithfulMap tl
end

/-! ### Operations, results and the extended-operation registry -/

/-- A patch operation object.  `value` is `undef` when the property is
absent; `path`, `fromPath` (the `from` field; `from` is reserved in Lean)
and `xid` are `none` when absent, since the dispatcher distinguishes a
missing string from an empty one.  `resolve` models `resolve === true`. -/
structure Op where
  op : String := ""
  path : Option String := none
  value : JVal := .undef
  fromPath : Option String := none
  xid : Option String := none
  resolve : Bool := false
deriving DecidableEq

/-- The result object of one operation.  Absent fields are `undef`
(`test` uses `Option` since the dispatcher checks `=== false`); `gotten`
records the value a `_get` stored into `operation.value`. -/
structure OpResult where
  newDocument : JVal := .undef
  removed : JVal := .undef
  test : Option Bool := none
  index : Option JKey := none
  gotten : JVal := .undef
deriving DecidableEq

/-- A registered extended-operation configuration: the array handler, the
object handler and the validator.  Handlers receive the operation (their
`this`), the container node, the key and the working document, and return
`none` for a JS `undefined` result; `Except` lets user code throw. -/
structure XConfig where
  arr : Op → JVal → JKey → JVal → Except JsErr (Option OpResult)
  obj : Op → JVal → JKey → JVal → Except JsErr (Option OpResult)
  validator : Op → Nat → Option JVal → Option String → Except JsErr Unit

/-- The process-wide `xOpRegistry`, as a lookup function. -/
def Registry : Type := String → Option XConfig

/-- `xOpRegistry.get(operation.xid)` (a non-string `xid` finds nothing). -/
def regGet (reg : Registry) : Option String → Option XConfig
  | none => none
  | some x => reg x

/-- `hasExtendedOperation` from core.mjs: a malformed `xid` throws
`OPERATION_X_ID_INVALID`; otherwise registry membership is returned. -/
def hasExtendedOperation (reg : Registry) (xid : Option String) : Except JsErr Bool :=
  if !isValidExtendedOpId xid then .error (.patch .OPERATION_X_ID_INVALID)
  else .ok (regGet reg xid).isSome

/-! ### Array splice -/

/-- `arr.splice(start, 1)`: the element removed (or `undefined`) and the
shortened array, with the JS clamping of the start index. -/
def JList.spliceRemove (xs : JList) (start : Int) : JList × JVal :=
  let len : Int := xs.length
  let s0 : Int := if start < 0 then max (len + start) 0 else min start len
  let sn := s0.toNat
  if sn < xs.length then (xs.removeAt sn, (xs.get? sn).getD .undef)
  else (xs, .undef)

/-- `arr.splice(start, 0, v)` with the JS clamping of the start index. -/
def JList.spliceInsert (xs : JList) (start : Int) (v : JVal) : JList :=
  let len : Int := xs.length
  let s0 : Int := if start < 0 then max (len + start) 0 else min start len
  xs.insertAt s0.toNat v

/-! ### The graft/prune reconciler (`_graftTree` from helpers.ts) -/

inductive ModType : Type where
  | graft
  | prune
deriving DecidableEq

/-- The single write that ends a multi-component reconciliation:
`graftTgt[graftKey] = graft`, read back through the target root. -/
def graftWrite (target : JVal) (tSteps : List JKey) (cursor : JVal)
    (k : String) (graftVal : JVal) : Except JsErr JVal :=
  (jsSet cursor (.s k) graftVal).map (setAtD target tSteps)

/-- The walk of `_graftTree` over a multi-component path: descends source
and target in lock step, stopping at the first point missing from the
target (graft) or at the parent of the leaf (prune). -/
def graftLoop (mt : ModType) (graftVal : JVal) (target : JVal) (cursor : JVal)
    (tSteps : List JKey) : List String → Except JsErr JVal
  | [] => .ok target
  | [k] => do
    let g ← jsGet graftVal (.s k)
    match mt, ← jsGet cursor (.s k) with
    | .graft, .undef =>
      if g = .undef then .ok target else graftWrite target tSteps cursor k g
    | _, _ => do
      let cursor' ← jsGet cursor (.s k)
      graftWrite target (tSteps ++ [.s k]) cursor' k g
  | k :: k' :: rest => do
    let g ← jsGet graftVal (.s k)
    match mt, ← jsGet cursor (.s k) with
    | .graft, .undef =>
      if g = .undef then .ok target else graftWrite target tSteps cursor k g
    | _, _ =>
      if rest.isEmpty then graftWrite target tSteps cursor k g
      else do
        let cursor' ← jsGet cursor (.s k)
        graftLoop mt g target cursor' (tSteps ++ [.s k]) (k' :: rest)

/-- `_graftTree` from helpers.ts: splice the handler-produced subtree into
(or prune it out of) the live target document along the path components,
returning the updated target. -/
def _graftTree (source target : JVal) (mt : ModType) (comps : List String) :
    Except JsErr JVal :=
  match comps with
  | [] => .ok target
  | [k] =>
    match mt with
    | .graft => do
      let v ← jsGet source (.s k)
      jsSet target (.s k) v
    | .prune =>
      match target with
      | .arr xs => .ok (.arr (xs.spliceRemove (tildeTildeStr k)).1)
      | t => jsDelete t (.s k)
  | comps => graftLoop mt source target target [] comps

/-! ### The dispatcher walk -/

/-- Inline-validation context: the operation's `path` (for the
`existingPathFragment` assignment at the last component) and the
`validateFunction` closure over the operation and the walk's document. -/
structure VCtx where
  opPath : Option String
  vfn : Option String → Except JsErr Unit

structure WalkFlags where
  ban : Bool
  isX : Bool
  resolve : Bool

/-- The state at which the loop applies the operation: the container
node, the processed key, the access path from the walk root, the
`keys.slice(0, t)` prefix (after any sentinel rewriting), the recorded
graft path, and the working document of an extended operation. -/
structure AppPoint where
  obj : JVal
  key : Option JKey
  steps : List JKey
  processedAll : List String
  graftPath : Option (List String)
  wroot : JVal

/-- A JS-`undefined` key used as a property name reads `"undefined"`. -/
def jkeyOfOpt : Option String → JKey
  | none => .s "undefined"
  | some k => .s k

/-- Lines 271-274: unescape a component when it contains a tilde. -/
def unescKey (k : String) : String :=
  if k.data.contains '~' then unescapePathComponent k else k

/-- Array-branch key handling (lines 296-333): the empty-key guard for
extended operations, the `-`/`--` sentinels, and the `isInteger`
coercion with the extended-operation bounds check.  Returns the access
key, the rewritten `keys` entry for a sentinel (extended operations
overwrite `keys[t-1]`), and whether a sentinel records the graft path. -/
def arrKeyProc (fl : WalkFlags) (validating : Bool) (xs : JList)
    (key1 : Option String) : Except JsErr (JKey × Option String × Bool) :=
  if fl.isX && !fl.resolve && key1 == some "" then
    .error (.patch .OPERATION_PATH_ILLEGAL_ARRAY_INDEX)
  else if key1 == some "-" then
    .ok (.i (xs.length : Int),
         if fl.isX then some (natToString xs.length) else none, fl.isX)
  else if fl.isX && key1 == some "--" then
    .ok (.i ((xs.length : Int) - 1), some (intToString ((xs.length : Int) - 1)), true)
  else
    match key1 with
    | none => .error .typeError
    | some k =>
      if validating && !isInteger k then
        .error (.patch .OPERATION_PATH_ILLEGAL_ARRAY_INDEX)
      else if isInteger k then
        if fl.isX && !fl.resolve && toInt32 (digitsToNat k) ≥ (xs.length : Int) then
          .error (.patch .OPERATION_VALUE_OUT_OF_BOUNDS)
        else .ok (.i (toInt32 (digitsToNat k)), none, false)
      else .ok (.s k, none, false)

/-- The prototype-pollution guard (lines 275-279). -/
def guardCheck (ban : Bool) (key1 prevRaw : Option String) : Bool :=
  ban && (key1 == some "__proto__" ||
    (key1 == some "prototype" && prevRaw == some "constructor"))

/-- The inline-validation bookkeeping of one iteration (lines 280-292):
when validating and no existing-path fragment is recorded yet, read
`obj[key]` (which can throw through `undefined`/`null`), record either
the processed prefix (on an undefined branch) or the operation's path (at
the last component), and invoke the validator when a fragment appears. -/
def epfStep (vctx : Option VCtx) (epf : Option String) (obj : JVal)
    (key1 : Option String) (isLast : Bool) (processed : List String) :
    Except JsErr (Option String) :=
  match vctx, epf with
  | some vc, none =>
    match jsGet obj (jkeyOfOpt key1) with
    | .error e => .error e
    | .ok v =>
      let e2 : Option String :=
        if v = .undef then some (joinSlash processed)
        else if isLast then vc.opPath
        else none
      match e2 with
      | some e => (vc.vfn (some e)).map (fun _ => some e)
      | none => .ok none
  | _, _ => .ok epf

/-- Key processing for the current container: array containers go through
`arrKeyProc` (possibly rewriting the `keys` entry and recording the graft
path), anything else uses the unescaped string key. -/
def keyInfo (fl : WalkFlags) (vctxSome : Bool) (obj : JVal)
    (key1 : Option String) (kRaw : String) (processed : List String)
    (gp : Option (List String)) :
    Except JsErr (JKey × String × Option (List String)) :=
  match obj with
  | .arr xs =>
    match arrKeyProc fl vctxSome xs key1 with
    | .error e => .error e
    | .ok (kv, mutKey, sent) =>
      let rawNew := mutKey.getD kRaw
      .ok (kv, rawNew, if sent && gp.isNone then some (processed ++ [rawNew]) else gp)
  | _ => .ok (jkeyOfOpt key1, kRaw, gp)

/-- The extended-operation forced path resolution plus the descent
`obj = obj[key]` (lines 423-447).  For an extended operation an undefined
branch records the graft path and, under `resolve === true`, synthesizes
a minimally-sized array (when the walk's document is an array and the
next raw component is numeric — `new Array(~~keys[t] + 1)`, whose
negative-count RangeError is unreachable with realistic indices and
clamped to 0 here) or a fresh object, writing it into the working root. -/
def xResolveStep (fl : WalkFlags) (document obj : JVal) (kv : JKey)
    (rawNew : String) (processed : List String) (steps : List JKey)
    (wroot : JVal) (gp1 : Option (List String)) (nextRaw : String) :
    Except JsErr (JVal × JVal × Option (List String)) :=
  if fl.isX then
    match jsGet obj kv with
    | .error e => .error e
    | .ok v =>
      if v = .undef then
        let gp' := if gp1.isNone then some (processed ++ [rawNew]) else gp1
        if fl.resolve then
          let newChild : JVal :=
            if (match document with | .arr _ => true | _ => false) &&
                isInteger nextRaw then
              .arr (JList.replicateUndef (toInt32 (digitsToNat nextRaw) + 1).toNat)
            else .obj .nil
          match jsSet obj kv newChild with
          | .error e => .error e
          | .ok obj' => .ok (newChild, setAtD wroot steps obj', gp')
        else .ok (v, wroot, gp')
      else .ok (v, wroot, gp1)
  else
    match jsGet obj kv with
    | .error e => .error e
    | .ok v => .ok (v, wroot, gp1)

/-- The checks at the head of one loop iteration: the prototype guard,
then the inline-validation bookkeeping. -/
def preChecks (fl : WalkFlags) (vctx : Option VCtx) (obj : JVal)
    (processed : List String) (key1 : Option String) (isLast : Bool)
    (epf : Option String) : Except JsErr (Option String) :=
  if guardCheck fl.ban key1 processed.getLast? then .error .typeError
  else epfStep vctx epf obj key1 isLast processed

/-- The dispatcher's `while (true)` loop (lines 270-448) up to the
application point: unescaping, the prototype-pollution guard, the
inline-validation bookkeeping, array key coercion, the
extended-operation forced path resolution, and the descent
`obj = obj[key]`.  `document` is the dispatcher's `document` variable —
never written during the walk — while `wroot` is the working root an
extended operation descends into (equal to `document` for standard
operations).  An exhausted `remaining` models `keys[t]` being the
JS-undefined value (`key1 = none`). -/
def descend (fl : WalkFlags) (vctx : Option VCtx) (document : JVal)
    (obj : JVal) (processed : List String) (remaining : List String)
    (steps : List JKey) (wroot : JVal) (graftPath : Option (List String))
    (epf : Option String) : Except JsErr AppPoint :=
  match remaining with
  | [] =>
    match preChecks fl vctx obj processed none false epf with
    | .error e => .error e
    | .ok _ =>
      match obj with
      | .arr xs =>
        (match arrKeyProc fl vctx.isSome xs none with
         | .error e => .error e
         | .ok _ => .error .typeError)
      | o => .ok ⟨o, none, steps, processed, graftPath, wroot⟩
  | [k] =>
    let key1 := some (unescKey k)
    match preChecks fl vctx obj processed key1 true epf with
    | .error e => .error e
    | .ok _ =>
      match keyInfo fl vctx.isSome obj key1 k processed graftPath with
      | .error e => .error e
      | .ok (kv, rawNew, gp') =>
        match obj with
        | .arr xs => .ok ⟨.arr xs, some kv, steps, processed ++ [rawNew], gp', wroot⟩
        | o => .ok ⟨o, key1.map .s, steps, processed ++ [rawNew], gp', wroot⟩
  | k :: k2 :: rest =>
    let key1 := some (unescKey k)
    match preChecks fl vctx obj processed key1 false epf with
    | .error e => .error e
    | .ok epf' =>
      match keyInfo fl vctx.isSome obj key1 k processed graftPath with
      | .error e => .error e
      | .ok (kv, rawNew, gp1) =>
        match xResolveStep fl document obj kv rawNew processed steps wroot gp1 k2 with
        | .error e => .error e
        | .ok (obj2, wroot2, gp2) =>
          if vctx.isSome && !truthyObject obj2 then
            .error (.patch .OPERATION_PATH_UNRESOLVABLE)
          else
            descend fl vctx document obj2 (processed ++ [rawNew]) (k2 :: rest)
              (steps ++ [kv]) wroot2 gp2 epf'

/-! ### Applying standard operations at the application point -/

/-- `arr[key]` for an array container (never throws). -/
def arrRead (xs : JList) (kv : JKey) : JVal :=
  match jsGet (.arr xs) kv with
  | .ok v => v
  | .error _ => (.undef)

/-- The `arrOps`/`objOps` application of a primitive operation (`add`,
`remove`, `replace`, `test`, `_get`) at the application point, including
the `test === false` raise and the out-of-bounds check of a validated
array `add`.  Unknown operation names model the `TypeError` of calling
the undefined member `objOps[op]`.  The error side carries the state of
the dispatcher's `document` variable (unchanged here: a primitive
application performs at most one write, which only happens on success). -/
def applyStdAtBasic (op : Op) (document : JVal) (ap : AppPoint)
    (validating : Bool) : Except (JsErr × JVal) (OpResult × JVal) :=
  match ap.obj with
  | .arr xs =>
    match ap.key with
    | none => .error (.typeError, document)
    | some kv =>
      if validating && op.op == "add" &&
          (match kv with | .i n => decide ((xs.length : Int) < n) | .s _ => false) then
        .error (.patch .OPERATION_VALUE_OUT_OF_BOUNDS, document)
      else if op.op == "add" then
        let xs' := match kv with
          | .i n => if 0 ≤ n then xs.spliceInsert n op.value else xs
          | .s _ => xs
        let d' := setAtD document ap.steps (.arr xs')
        .ok ({newDocument := d', index := some kv}, d')
      else if op.op == "remove" then
        let start := match kv with | .i n => n | .s k => tildeTildeStr k
        let pr := xs.spliceRemove start
        let d' := setAtD document ap.steps (.arr pr.1)
        .ok ({newDocument := d', removed := pr.2}, d')
      else if op.op == "replace" then
        let removed := arrRead xs kv
        match jsSet (.arr xs) kv op.value with
        | .error e => .error (e, document)
        | .ok o' =>
          let d' := setAtD document ap.steps o'
          .ok ({newDocument := d', removed := removed}, d')
      else if op.op == "test" then
        if _areEquals (arrRead xs kv) op.value then
          .ok ({newDocument := document, test := some true}, document)
        else .error (.patch .TEST_OPERATION_FAILED, document)
      else if op.op == "_get" then
        .ok ({newDocument := document, gotten := arrRead xs kv}, document)
      else .error (.typeError, document)
  | o =>
    let kk : JKey := match ap.key with
      | some (.s k) => .s k
      | some (.i n) => .s (intToString n)
      | none => .s "undefined"
    if op.op == "add" then
      match jsSet o kk op.value with
      | .error e => .error (e, document)
      | .ok o' =>
        let d' := setAtD document ap.steps o'
        .ok ({newDocument := d'}, d')
    else if op.op == "remove" then
      match jsGet o kk with
      | .error e => .error (e, document)
      | .ok removed =>
        match jsDelete o kk with
        | .error e => .error (e, document)
        | .ok o' =>
          let d' := setAtD document ap.steps o'
          .ok ({newDocument := d', removed := removed}, d')
    else if op.op == "replace" then
      match jsGet o kk with
      | .error e => .error (e, document)
      | .ok removed =>
        match jsSet o kk op.value with
        | .error e => .error (e, document)
        | .ok o' =>
          let d' := setAtD document ap.steps o'
          .ok ({newDocument := d', removed := removed}, d')
    else if op.op == "test" then
      match jsGet o kk with
      | .error e => .error (e, document)
      | .ok v =>
        if _areEquals v op.value then
          .ok ({newDocument := document, test := some true}, document)
        else .error (.patch .TEST_OPERATION_FAILED, document)
    else if op.op == "_get" then
      match jsGet o kk with
      | .error e => .error (e, document)
      | .ok v => .ok ({newDocument := document, gotten := v}, document)
    else .error (.typeError, document)

/-- Root-path dispatch (lines 171-205) for the primitive operations. -/
def applyRootBasic (op : Op) (validate : Bool) (document : JVal) :
    Except (JsErr × JVal) (OpResult × JVal) :=
  if op.op == "add" then .ok ({newDocument := op.value}, document)
  else if op.op == "replace" then
    .ok ({newDocument := op.value, removed := document}, document)
  else if op.op == "test" then
    if _areEquals document op.value then
      .ok ({newDocument := document, test := some true}, document)
    else .error (.patch .TEST_OPERATION_FAILED, document)
  else if op.op == "remove" then
    .ok ({newDocument := .null, removed := document}, document)
  else if op.op == "_get" then
    .ok ({newDocument := document, gotten := document}, document)
  else if validate then .error (.patch .OPERATION_OP_INVALID, document)
  else .ok ({newDocument := document}, document)

/-- The `applyOperation` restriction the library calls internally — with
default arguments, so `mutateDocument = true` and the prototype guard on.
Move, copy and extended operations never occur on these internal calls
(`getValueByPointer`, the inner operations of `move`/`copy`, and the
validator's dry `_get` run), so only primitive operations are dispatched;
`vf` is the validator used when `validate` is set. -/
def applyBasic (vf : Op → Nat → Option JVal → Option String → Except JsErr Unit)
    (validate : Bool) (document : JVal) (op : Op) :
    Except (JsErr × JVal) (OpResult × JVal) :=
  match (if validate then vf op 0 none none else .ok ()) with
  | .error e => .error (e, document)
  | .ok _ =>
    if op.path = some "" then applyRootBasic op validate document
    else
      let keys := splitSlash (op.path.getD "")
      let vctx : Option VCtx :=
        if validate then some ⟨op.path, fun e => vf op 0 (some document) e⟩ else none
      let fl : WalkFlags := ⟨true, false, false⟩
      match descend fl vctx document document [keys.headD ""] (keys.drop 1)
          [] document none none with
      | .error e => .error (e, document)
      | .ok ap => applyStdAtBasic op document ap validate

/-- Validator placeholder for unvalidated internal calls (never invoked
because they pass `validate = false`). -/
def noValidate : Op → Nat → Option JVal → Option String → Except JsErr Unit :=
  fun _ _ _ _ => .ok ()

/-- `getValueByPointer` from core.mjs: the empty pointer returns the
document, any other pointer runs an internal `_get` operation (with
default arguments, hence no validation) and reads `operation.value`. -/
def getValueByPointer (document : JVal) (pointer : Option String) :
    Except JsErr JVal :=
  if pointer = some "" then .ok document
  else
    match applyBasic noValidate false document {op := "_get", path := pointer} with
    | .ok (res, _) => .ok res.gotten
    | .error (e, _) => .error e

/-- `objOps.copy` (also `arrOps.copy`): read the value at `from`, then
`add` a deep clone of it at `path` through a recursive dispatch with
default arguments.  The container/key pair handed to the handler is
ignored by the source. -/
def copyImpl (document : JVal) (op : Op) :
    Except (JsErr × JVal) (OpResult × JVal) :=
  match getValueByPointer document op.fromPath with
  | .error e => .error (e, document)
  | .ok valueToCopy =>
    match applyBasic noValidate false document
        {op := "add", path := op.path, value := _deepClone valueToCopy} with
    | .error ed => .error ed
    | .ok (_, d') => .ok ({newDocument := d'}, d')

/-- `objOps.move` (also `arrOps.move`): snapshot (and clone, when truthy)
the value being overwritten at `path`, `remove` at `from`, then `add` the
removed value at `path`, both through recursive dispatches with default
arguments that keep operating on the same document variable. -/
def moveImpl (document : JVal) (op : Op) :
    Except (JsErr × JVal) (OpResult × JVal) :=
  match getValueByPointer document op.path with
  | .error e => .error (e, document)
  | .ok r0 =>
    let removed := if truthy r0 then _deepClone r0 else r0
    match applyBasic noValidate false document {op := "remove", path := op.fromPath} with
    | .error ed => .error ed
    | .ok (r1, d1) =>
      match applyBasic noValidate false d1
          {op := "add", path := op.path, value := r1.removed} with
      | .error ed => .error ed
      | .ok (_, d2) => .ok ({newDocument := d2, removed := removed}, d2)

/-! ### The validator -/

/-- `path.indexOf('/') === 0`. -/
def startsWithSlash (p : String) : Bool :=
  match p.data with
  | '/' :: _ => true
  | _ => false

/-- The recognized standard operation names — the own keys of `objOps`
(inherited properties of the object literal are not modelled). -/
def isStdOpName (o : String) : Bool :=
  o == "add" || o == "remove" || o == "replace" || o == "move" ||
    o == "copy" || o == "test" || o == "_get"

/-- `validator` from core.mjs (lines 508-578), parameterized by the
dry-run `validate([{op:'_get', path: from}], document)` used by the
`move`/`copy` document check, to stratify the recursion.  Operations are
well-typed records here, so `OPERATION_NOT_AN_OBJECT` is unreachable, and
`args` (which no claim touches) is modelled as always absent, so the
`OPERATION_X_ARGS_NOT_ARRAY` check passes. -/
def validatorWith (reg : Registry)
    (dryGet : Option String → JVal → Except JsErr (Option ErrName))
    (op : Op) (_index : Nat) (document : Option JVal) (epf : Option String) :
    Except JsErr Unit :=
  if op.op == "x" then
    if !isValidExtendedOpId op.xid then .error (.patch .OPERATION_X_ID_INVALID)
    else
      match regGet reg op.xid with
      | none => .error (.patch .OPERATION_X_OP_INVALID)
      | some cfg =>
        match op.path with
        | none => .error (.patch .OPERATION_PATH_INVALID)
        | some p =>
          if !startsWithSlash p && p.data.length > 0 then
            .error (.patch .OPERATION_PATH_INVALID)
          else if p = "/" then .error (.patch .OPERATION_PATH_UNRESOLVABLE)
          else cfg.validator op _index document epf
  else if !isStdOpName op.op then .error (.patch .OPERATION_OP_INVALID)
  else
    match op.path with
    | none => .error (.patch .OPERATION_PATH_INVALID)
    | some p =>
      if !startsWithSlash p && p.data.length > 0 then
        .error (.patch .OPERATION_PATH_INVALID)
      else if (op.op == "move" || op.op == "copy") && op.fromPath = none then
        .error (.patch .OPERATION_FROM_REQUIRED)
      else if (op.op == "add" || op.op == "replace" || op.op == "test") &&
          op.value = .undef then
        .error (.patch .OPERATION_VALUE_REQUIRED)
      else if (op.op == "add" || op.op == "replace" || op.op == "test") &&
          hasUndefined op.value then
        .error (.patch .OPERATION_VALUE_CANNOT_CONTAIN_UNDEFINED)
      else
        match document with
        | some d =>
          if truthy d then
            if op.op == "add" then
              match epf with
              | none => .error .typeError
              | some e =>
                let pathLen := (splitSlash p).length
                let epfLen := (splitSlash e).length
                if pathLen ≠ epfLen + 1 ∧ pathLen ≠ epfLen then
                  .error (.patch .OPERATION_PATH_CANNOT_ADD)
                else .ok ()
            else if op.op == "replace" || op.op == "remove" || op.op == "_get" then
              if some p ≠ epf then .error (.patch .OPERATION_PATH_UNRESOLVABLE)
              else .ok ()
            else if op.op == "move" || op.op == "copy" then
              match dryGet op.fromPath d with
              | .error e => .error e
              | .ok (some .OPERATION_PATH_UNRESOLVABLE) =>
                .error (.patch .OPERATION_FROM_UNRESOLVABLE)
              | .ok _ => .ok ()
            else .ok ()
          else .ok ()
        | none => .ok ()

/-- One `JSON.parse(JSON.stringify(·))` round trip of an operation object
(`_deepClone` maps over the validated sequence): string fields and the
`resolve` flag survive, the `value` goes through the serialization round
trip, an absent field stays absent. -/
def cloneOp (o : Op) : Op :=
  {o with value := (jclean o.value).getD .undef}

/-- The `validate([{op:'_get', path: from, value: undefined}], document)`
dry run inside the `move`/`copy` validator branch: the sequence holds a
single primitive `_get`, so the general sequence validation specializes
to one validated dispatch of the cloned `_get` against a cloned document
(on a `_get` the full validator never consults its own dry-run hook, so a
vacuous hook is passed).  Called only when `document` is truthy. -/
def dryGetRun (reg : Registry) (fromP : Option String) (d : JVal) :
    Except JsErr (Option ErrName) :=
  match applyBasic (validatorWith reg (fun _ _ => .ok none)) true (_deepClone d)
      (cloneOp {op := "_get", path := fromP}) with
  | .ok _ => .ok none
  | .error (.patch k, _) => .ok (some k)
  | .error (.typeError, _) => .error .typeError

/-- The full `validator` of core.mjs. -/
def validator (reg : Registry) :
    Op → Nat → Option JVal → Option String → Except JsErr Unit :=
  validatorWith reg (dryGetRun reg)

/-! ### Extended-operation application and the full dispatcher -/

/-- Application of a registered extended operation at the application
point (lines 334-370 for arrays, 383-414 for objects): the empty-key
parity return, the handler call against the working clone, the
`undefined`-result no-op, the ambiguous-removal check (arrays only),
and — when mutating — the graft/prune reconciliation into the live
document. -/
def applyXAt (cfg : XConfig) (op : Op) (mutate : Bool) (document : JVal)
    (ap : AppPoint) : Except (JsErr × JVal) (OpResult × JVal) :=
  match ap.obj with
  | .arr xs =>
    match ap.key with
    | none => .error (.typeError, document)
    | some kv =>
      if kv == .s "" && !op.resolve then .ok ({newDocument := op.value}, document)
      else
        match cfg.arr op (.arr xs) kv ap.wroot with
        | .error e => .error (e, document)
        | .ok none => .ok ({newDocument := document}, document)
        | .ok (some res) =>
          if res.removed ≠ .undef ∧ op.resolve then
            .error (.patch .OPERATION_X_AMBIGUOUS_REMOVAL, document)
          else if mutate then
            let mc : ModType × List String :=
              if res.removed ≠ .undef then (.prune, ap.processedAll.drop 1)
              else (.graft, (ap.graftPath.getD ap.processedAll).drop 1)
            match _graftTree res.newDocument document mc.1 mc.2 with
            | .error e => .error (e, document)
            | .ok d' => .ok ({newDocument := d'}, d')
          else .ok (res, document)
  | o =>
    match ap.key with
    | none => .error (.typeError, document)
    | some kv =>
      if kv == .s "" && !op.resolve then .ok ({newDocument := op.value}, document)
      else
        match cfg.obj op o kv ap.wroot with
        | .error e => .error (e, document)
        | .ok none => .ok ({newDocument := document}, document)
        | .ok (some res) =>
          if mutate then
            let mc : ModType × List String :=
              if res.removed ≠ .undef then (.prune, ap.processedAll.drop 1)
              else (.graft, (ap.graftPath.getD ap.processedAll).drop 1)
            match _graftTree res.newDocument document mc.1 mc.2 with
            | .error e => .error (e, document)
            | .ok d' => .ok ({newDocument := d'}, d')
          else .ok (res, document)

/-- Root-path dispatch (lines 171-238) for every operation kind.  The
working node handed to a root extended handler is the live document when
mutating and a clone otherwise; the handler is consulted only under
`resolve === true`, the dispatch otherwise short-circuiting to
`operation.value`. -/
def applyRootFull (reg : Registry) (op : Op) (validate mutate : Bool)
    (document : JVal) : Except (JsErr × JVal) (OpResult × JVal) :=
  if op.op == "move" || op.op == "copy" then
    match getValueByPointer document op.fromPath with
    | .error e => .error (e, document)
    | .ok v =>
      .ok ({newDocument := v,
            removed := if op.op == "move" then document else .undef}, document)
  else if op.op == "x" then
    match regGet reg op.xid with
    | none => .error (.patch .OPERATION_X_OP_INVALID, document)
    | some cfg =>
      let working := if mutate then document else _deepClone document
      if op.resolve then
        match cfg.obj op working (.s "") working with
        | .error e => .error (e, document)
        | .ok none => .ok ({newDocument := document}, document)
        | .ok (some r) => .ok (r, document)
      else .ok ({newDocument := op.value}, document)
  else applyRootBasic op validate document

/-- Application step of the full dispatcher at the end of the walk. -/
def applyFullAt (reg : Registry) (op : Op) (mutate : Bool) (document : JVal)
    (ap : AppPoint) (validating : Bool) : Except (JsErr × JVal) (OpResult × JVal) :=
  if op.op == "x" then
    match regGet reg op.xid with
    | some cfg => applyXAt cfg op mutate document ap
    | none => .error (.typeError, document)
  else if op.op == "move" then moveImpl document op
  else if op.op == "copy" then copyImpl document op
  else applyStdAtBasic op document ap validating

/-- `applyOperation` from core.mjs.  The result pairs the operation's
returned object with the value seen through the caller's original
document reference after the call: with `mutateDocument = false` the
dispatcher reassigns `document` to a deep clone before traversal (line
241-243), so the caller's value never changes; with `mutateDocument =
true` the caller observes the dispatcher's document variable. -/
def applyOperation (reg : Registry) (document : JVal) (op : Op)
    (validateOp : Bool := false) (mutate : Bool := true) (ban : Bool := true) :
    Except (JsErr × JVal) (OpResult × JVal) :=
  match (if validateOp then validator reg op 0 none none else .ok ()) with
  | .error e => .error (e, document)
  | .ok _ =>
    if op.path = some "" then applyRootFull reg op validateOp mutate document
    else
      let docVar := if mutate then document else _deepClone document
      let isx := op.op == "x"
      match (if isx then
               match regGet reg op.xid with
               | none => Except.error (JsErr.patch .OPERATION_X_OP_INVALID)
               | some c => Except.ok (some c)
             else Except.ok none) with
      | .error e => .error (e, document)
      | .ok cfgO =>
        let wroot := match cfgO with
          | some _ => _deepClone docVar
          | none => docVar
        let keys := splitSlash (op.path.getD "")
        let vctx : Option VCtx :=
          if validateOp then
            some ⟨op.path, fun e => validator reg op 0 (some docVar) e⟩
          else none
        let fl : WalkFlags := ⟨ban, isx, op.resolve⟩
        match descend fl vctx docVar wroot [keys.headD ""] (keys.drop 1)
            [] wroot none none with
        | .error e => .error (e, document)
        | .ok ap =>
          match applyFullAt reg op mutate docVar ap validateOp with
          | .error (e, d') => .error (e, if mutate then d' else document)
          | .ok (res, d') => .ok (res, if mutate then d' else document)

/-- The fold of `applyPatch` over the operations: each dispatch runs with
`mutateDocument = true` (the clone, if requested, already happened) and
the next operation sees the returned `newDocument`. -/
def applyPatchOps (reg : Registry) (validateOp ban : Bool) :
    JVal → List Op → Except (JsErr × JVal) (List OpResult × JVal)
  | document, [] => .ok ([], document)
  | document, o :: os =>
    match applyOperation reg document o validateOp true ban with
    | .error ed => .error ed
    | .ok (res, _) =>
      match applyPatchOps reg validateOp ban res.newDocument os with
      | .error ed => .error ed
      | .ok (results, final) => .ok (res :: results, final)

/-- `applyPatch` from core.mjs: clone once when not mutating, then fold
the dispatcher over the sequence, threading `newDocument`.  (The
`SEQUENCE_NOT_AN_ARRAY` pre-check cannot fire on a typed list.) -/
def applyPatch (reg : Registry) (document : JVal) (patch : List Op)
    (validateOp : Bool := false) (mutate : Bool := true) (ban : Bool := true) :
    Except (JsErr × JVal) (List OpResult × JVal) :=
  applyPatchOps reg validateOp ban
    (if mutate then document else _deepClone document) patch

/-- The structural half of `validate`: run the chosen validator over each
operation in order, with no path-existence information. -/
def validateStructural (reg : Registry) (document : Option JVal) :
    Nat → List Op → Except JsErr Unit
  | _, [] => .ok ()
  | i, o :: os =>
    match validator reg o i document none with
    | .error e => .error e
    | .ok _ => validateStructural reg document (i + 1) os

/-- `validate` from core.mjs: with a truthy document, dry-run the cloned
sequence against a cloned document through `applyPatch` with validation
on; otherwise check each operation structurally.  A `JsonPatchError` is
caught and returned as a value, anything else is re-raised.  The optional
external validator is modelled at its default. -/
def validate (reg : Registry) (sequence : List Op) (document : Option JVal) :
    Except JsErr (Option ErrName) :=
  let run : Except JsErr Unit :=
    match document with
    | some d =>
      if truthy d then
        match applyPatch reg (_deepClone d) (sequence.map cloneOp) true with
        | .ok _ => .ok ()
        | .error (e, _) => .error e
      else validateStructural reg (some d) 0 sequence
    | none => validateStructural reg none 0 sequence
  match run with
  | .ok _ => .ok none
  | .error (.patch k) => .ok (some k)
  | .error .typeError => .error .typeError

/-! ### Derived observations and concrete fixtures -/

/-- The value seen through the caller's original document reference after
a dispatch, whether it succeeded or threw. -/
def callerView : Except (JsErr × JVal) (OpResult × JVal) → JVal
  | .ok (_, cd) => cd
  | .error (_, cd) => cd

/-- The per-component prototype-pollution test of the guard (line
275-279): the unescaped component is `__proto__`, or it is `prototype`
and the raw previous component is `constructor`. -/
def protoViolation (prev cur : String) : Bool :=
  unescKey cur == "__proto__" ||
    (unescKey cur == "prototype" && prev == "constructor")

/-- Some component of the tail violates the prototype guard relative to
its predecessor. -/
def badFrom : String → List String → Bool
  | _, [] => false
  | prev, k :: ks => protoViolation prev k || badFrom k ks

/-- A split pointer contains a banned component (the guard inspects
positions from 1 on, each against its raw predecessor). -/
def badKeys : List String → Bool
  | [] => false
  | k0 :: rest => badFrom k0 rest

/-- The empty registry. -/
def reg0 : Registry := fun _ => none

/-- A registered configuration whose handlers always report a removal. -/
def cfgRem : XConfig :=
  { arr := fun _ _ _ _ => .ok (some {newDocument := .arrL [], removed := .num 1})
    obj := fun _ _ _ _ => .ok (some {newDocument := .objL [("a", .num 1)], removed := .num 1})
    validator := fun _ _ _ _ => .ok () }

/-- Registry binding `x-r` to `cfgRem`. -/
def regRem : Registry := fun s => if s = "x-r" then some cfgRem else none

/-- A registered configuration whose handlers always return a
replacement document `42`. -/
def cfg42 : XConfig :=
  { arr := fun _ _ _ _ => .ok (some {newDocument := .num 42})
    obj := fun _ _ _ _ => .ok (some {newDocument := .num 42})
    validator := fun _ _ _ _ => .ok () }

/-- Registry binding `x-f` to `cfg42`. -/
def reg42 : Registry := fun s => if s = "x-f" then some cfg42 else none

/-- A registered configuration whose handlers always return `undefined`. -/
def cfgNone : XConfig :=
  { arr := fun _ _ _ _ => .ok none
    obj := fun _ _ _ _ => .ok none
    validator := fun _ _ _ _ => .ok () }

/-- Registry binding `x-n` to `cfgNone`. -/
def regNone : Registry := fun s => if s = "x-n" then some cfgNone else none

/-! ### Supporting lemmas -/

theorem _areEquals_self (a : JVal) : _areEquals a a = true := by
  unfold _areEquals
  simp

theorem jsGet_error {v : JVal} {k : JKey} {e : JsErr}
    (h : jsGet v k = .error e) : e = .typeError := by
  cases v <;> cases k <;> simp only [jsGet] at h <;>
    (repeat' split at h) <;> simp_all

theorem unescTilde1_ne_nil {l : List Char} (h : l ≠ []) : unescTilde1 l ≠ [] := by
  unfold unescTilde1
  split <;> simp_all

theorem unescTilde0_ne_nil {l : List Char} (h : l ≠ []) : unescTilde0 l ≠ [] := by
  unfold unescTilde0
  split <;> simp_all

theorem unescKey_empty {k : String} (h : unescKey k = "") : k = "" := by
  unfold unescKey at h
  split at h
  · next hc =>
    by_cases hk : k.data = []
    · cases k
      simp_all
    · exfalso
      have h1 : unescTilde1 k.data ≠ [] := unescTilde1_ne_nil hk
      have h0 : unescTilde0 (unescTilde1 k.data) ≠ [] := unescTilde0_ne_nil h1
      unfold unescapePathComponent at h
      have : unescTilde0 (unescTilde1 k.data) = [] := congrArg String.data h
      exact h0 this
  · exact h

theorem isInteger_digits {s : String} (h : isInteger s = true) :
    ∀ c ∈ s.data, 48 ≤ c.toNat ∧ c.toNat ≤ 57 := by
  intro c hc
  unfold isInteger at h
  have := List.all_eq_true.mp h c hc
  exact ⟨(Bool.and_eq_true _ _ |>.mp this).1 |> of_decide_eq_true,
         (Bool.and_eq_true _ _ |>.mp this).2 |> of_decide_eq_true⟩

theorem isInteger_no_char {s : String} (h : isInteger s = true) {c : Char}
    (hc : c.toNat < 48 ∨ 57 < c.toNat) : c ∉ s.data := by
  intro hmem
  have := isInteger_digits h c hmem
  omega

theorem isInteger_not_contains_tilde {s : String} (h : isInteger s = true) :
    s.data.contains '~' = false := by
  rw [List.contains_eq_any_beq]
  rw [List.any_eq_false]
  intro c hc
  simp only [beq_iff_eq]
  intro heq
  subst heq
  exact isInteger_no_char h (by right; decide) hc

theorem unescKey_of_isInteger {s : String} (h : isInteger s = true) :
    unescKey s = s := by
  unfold unescKey
  rw [isInteger_not_contains_tilde h]
  simp

theorem ne_of_isInteger {s t : String} (h : isInteger s = true)
    (ht : isInteger t = false) : s ≠ t := by
  intro he
  rw [he, ht] at h
  cases h

theorem splitSlashChars_no_slash {l : List Char} (h : ∀ c ∈ l, c ≠ '/') :
    splitSlashChars l = [l] := by
  induction l with
  | nil => rfl
  | cons c cs ih =>
    unfold splitSlashChars
    have hc : c ≠ '/' := h c (by simp)
    rw [ih (fun d hd => h d (by simp [hd]))]
    simp [hc]

theorem isInteger_no_slash {s : String} (h : isInteger s = true) :
    ∀ c ∈ s.data, c ≠ '/' := by
  intro c hc he
  subst he
  exact isInteger_no_char h (by left; decide) hc

theorem splitSlash_slash (s : String) (h : ∀ c ∈ s.data, c ≠ '/') :
    splitSlash ("/" ++ s) = ["", s] := by
  unfold splitSlash
  have hd : ("/" ++ s).data = '/' :: s.data := by
    cases s
    rfl
  rw [hd]
  have h1 : splitSlashChars ('/' :: s.data) = [] :: splitSlashChars s.data := by
    conv_lhs => unfold splitSlashChars
    simp
  rw [h1, splitSlashChars_no_slash h]
  cases s
  rfl

theorem toInt32_small {n : Nat} (h : n < 2147483648) : toInt32 n = n := by
  unfold toInt32
  have h1 : n % 4294967296 = n := Nat.mod_eq_of_lt (by omega)
  simp only [h1]
  simp [h]

mutual
theorem jclean_faithful : (v : JVal) → cloneFaithful v = true → jclean v = some v
  | .undef, h => by simp [cloneFaithful] at h
  | .null, _ => rfl
  | .bool _, _ => rfl
  | .num _, _ => rfl
  | .nan, h => by simp [cloneFaithful] at h
  | .str _, _ => rfl
  | .arr xs, h => by
    simp only [cloneFaithful] at h
    simp [jclean, jcleanList_faithful xs h]
  | .obj m, h => by
    simp only [cloneFaithful] at h
    simp [jclean, jcleanMap_faithful m h]

theorem jcleanList_faithful : (xs : JList) → cloneFaithfulList xs = true → jcleanList xs = xs
  | .nil, _ => rfl
  | .cons v tl, h => by
    simp only [cloneFaithfulList, Bool.and_eq_true] at h
    simp [jcleanList, jclean_faithful v h.1, jcleanList_faithful tl h.2]

theorem jcleanMap_faithful : (m : JMap) → cloneFaithfulMap m = true → jcleanMap m = m
  | .nil, _ => rfl
  | .cons k v tl, h => by
    simp only [cloneFaithfulMap, Bool.and_eq_true] at h
    simp [jcleanMap, jclean_faithful v h.1, jcleanMap_faithful tl h.2]
end

theorem _deepClone_faithful {v : JVal} (h : cloneFaithful v = true) :
    _deepClone v = v := by
  cases v <;> simp_all [_deepClone, jclean_faithful, cloneFaithful]

theorem isValidExtendedOpId_iff (s : String) :
    isValidExtendedOpId (some s) = true ↔
      (3 ≤ s.data.length ∧ ∃ t, s.data = 'x' :: '-' :: t) := by
  unfold isValidExtendedOpId
  rw [Bool.and_eq_true]
  constructor
  · rintro ⟨h1, h2⟩
    refine ⟨of_decide_eq_true h1, ?_⟩
    split at h2
    · next t heq => exact ⟨t, heq⟩
    · cases h2
  · rintro ⟨h1, t, h2⟩
    refine ⟨decide_eq_true h1, ?_⟩
    simp [h2]

/-! ### Claims -/

/-- C10: for every string `xid` that is not a well-formed extended
operation identifier (length at least 3, beginning with `x-`),
`hasExtendedOperation` does not return `false` but throws
`OPERATION_X_ID_INVALID`; for a well-formed identifier it returns a
boolean (registry membership). -/
theorem c10_hasExtendedOperation_malformed_xid_throws (reg : Registry) (s : String) :
    (¬ (3 ≤ s.data.length ∧ ∃ t, s.data = 'x' :: '-' :: t) →
      hasExtendedOperation reg (some s) = .error (.patch .OPERATION_X_ID_INVALID)) ∧
    ((3 ≤ s.data.length ∧ ∃ t, s.data = 'x' :: '-' :: t) →
      ∃ b : Bool, hasExtendedOperation reg (some s) = .ok b) := by
  constructor
  · intro h
    have hv : isValidExtendedOpId (some s) = false :=
      Bool.eq_false_iff.mpr (fun hh => h ((isValidExtendedOpId_iff s).mp hh))
    unfold hasExtendedOperation
    rw [hv]
    rfl
  · intro h
    have hv : isValidExtendedOpId (some s) = true := (isValidExtendedOpId_iff s).mpr h
    unfold hasExtendedOperation
    rw [hv]
    exact ⟨_, rfl⟩

/-- Witness for C10 at the malformed identifier `y-op` (throws) and the
well-formed identifier `x-op` (returns a boolean). -/
theorem c10_witness :
    hasExtendedOperation reg0 (some "y-op") = .error (.patch .OPERATION_X_ID_INVALID) ∧
    (∃ b : Bool, hasExtendedOperation reg0 (some "x-op") = .ok b) :=
  ⟨(c10_hasExtendedOperation_malformed_xid_throws reg0 "y-op").1
     (by
       rintro ⟨-, t, h⟩
       rw [show "y-op".data = ['y', '-', 'o', 'p'] from rfl] at h
       simp only [List.cons.injEq] at h
       exact absurd h.1 (by decide)),
   (c10_hasExtendedOperation_malformed_xid_throws reg0 "x-op").2
     ⟨by decide, ['o', 'p'], rfl⟩⟩

/-- Unfolding of `descend` at an exhausted component list. -/
theorem descend_nil (fl : WalkFlags) (vctx : Option VCtx) (document obj : JVal)
    (processed : List String) (steps : List JKey) (wroot : JVal)
    (graftPath : Option (List String)) (epf : Option String) :
    descend fl vctx document obj processed [] steps wroot graftPath epf =
      (match preChecks fl vctx obj processed none false epf with
       | .error e => .error e
       | .ok _ =>
         match obj with
         | .arr xs =>
           (match arrKeyProc fl vctx.isSome xs none with
            | .error e => .error e
            | .ok _ => .error .typeError)
         | o => .ok ⟨o, none, steps, processed, graftPath, wroot⟩) := rfl

/-- Unfolding of `descend` at the last component. -/
theorem descend_last (fl : WalkFlags) (vctx : Option VCtx) (document obj : JVal)
    (processed : List String) (k : String) (steps : List JKey) (wroot : JVal)
    (graftPath : Option (List String)) (epf : Option String) :
    descend fl vctx document obj processed [k] steps wroot graftPath epf =
      (match preChecks fl vctx obj processed (some (unescKey k)) true epf with
       | .error e => .error e
       | .ok _ =>
         match keyInfo fl vctx.isSome obj (some (unescKey k)) k processed graftPath with
         | .error e => .error e
         | .ok (kv, rawNew, gp') =>
           match obj with
           | .arr xs => .ok ⟨.arr xs, some kv, steps, processed ++ [rawNew], gp', wroot⟩
           | o => .ok ⟨o, (some (unescKey k)).map .s, steps, processed ++ [rawNew], gp', wroot⟩) := rfl

/-- Unfolding of `descend` at an inner component. -/
theorem descend_cons (fl : WalkFlags) (vctx : Option VCtx) (document obj : JVal)
    (processed : List String) (k k2 : String) (rest : List String)
    (steps : List JKey) (wroot : JVal) (graftPath : Option (List String))
    (epf : Option String) :
    descend fl vctx document obj processed (k :: k2 :: rest) steps wroot graftPath epf =
      (match preChecks fl vctx obj processed (some (unescKey k)) false epf with
       | .error e => .error e
       | .ok epf' =>
         match keyInfo fl vctx.isSome obj (some (unescKey k)) k processed graftPath with
         | .error e => .error e
         | .ok (kv, rawNew, gp1) =>
           match xResolveStep fl document obj kv rawNew processed steps wroot gp1 k2 with
           | .error e => .error e
           | .ok (obj2, wroot2, gp2) =>
             if vctx.isSome && !truthyObject obj2 then
               .error (.patch .OPERATION_PATH_UNRESOLVABLE)
             else
               descend fl vctx document obj2 (processed ++ [rawNew]) (k2 :: rest)
                 (steps ++ [kv]) wroot2 gp2 epf') := rfl

/-- The walk of a single all-digit component over an array container
reaches the application point with the `ToInt32`-coerced index (stated
for every flag set that is not an unresolved extended operation, whose
bounds check would need the index in range). -/
theorem descend_single_digit (fl : WalkFlags) (xs : JList) (s : String)
    (d w : JVal) (h : isInteger s = true)
    (hfl : (fl.isX && !fl.resolve) = false) :
    descend fl none d (.arr xs) [""] [s] [] w none none =
      .ok ⟨.arr xs, some (.i (toInt32 (digitsToNat s))), [], ["", s], none, w⟩ := by
  have hs : unescKey s = s := unescKey_of_isInteger h
  have g1 : s ≠ "__proto__" := ne_of_isInteger h (by decide)
  have g2 : s ≠ "prototype" := ne_of_isInteger h (by decide)
  have g3 : s ≠ "-" := ne_of_isInteger h (by decide)
  have g4 : s ≠ "--" := ne_of_isInteger h (by decide)
  have b1 : (some s == some "__proto__") = false := by simp [g1]
  have b2 : (some s == some "prototype") = false := by simp [g2]
  have b3 : (some s == some "-") = false := by simp [g3]
  have b4 : (some s == some "--") = false := by simp [g4]
  rw [descend_last]
  simp only [hs, preChecks, guardCheck, epfStep, keyInfo, arrKeyProc, b1, b2, b3, b4,
    hfl, Bool.false_and, Bool.true_and, Bool.or_false, Bool.false_or,
    Bool.and_false, Option.isSome_none, h]
  simp [hfl]

/-- The walk of the single non-integer component `x1` over an array
container reaches the application point with the string key. -/
theorem descend_single_x1 (xs : JList) (d w : JVal) :
    descend ⟨true, false, false⟩ none d (.arr xs) [""] ["x1"] [] w none none =
      .ok ⟨.arr xs, some (.s "x1"), [], ["", "x1"], none, w⟩ := rfl

/-- C9 counterexample: the claim says a component with leading zeros fails
resolution as a list index, but `/00` on the array `[5]` resolves to
element 0 and a `test` through that path succeeds. -/
theorem c9_counterexample :
    getValueByPointer (.arrL [.num 5]) (some "/00") = .ok (.num 5) ∧
    applyOperation reg0 (.arrL [.num 5])
      {op := "test", path := some "/00", value := .num 5} =
      .ok ({newDocument := .arrL [.num 5], test := some true}, .arrL [.num 5]) := by
  decide

/-- C9 amended: resolving a component against a list container succeeds
for every all-digit component — leading zeros and the empty component
included, coerced to their numeric value — returning the element there
(or `undefined` past the end), while a component with a non-digit
character (here `x1`) resolves to `undefined`. -/
theorem c9_array_digit_components_resolve (xs : JList) (s : String)
    (h : isInteger s = true) (hsmall : digitsToNat s < 2147483648) :
    getValueByPointer (.arr xs) (some ("/" ++ s)) =
      .ok ((xs.get? (digitsToNat s)).getD .undef) ∧
    getValueByPointer (.arr xs) (some "/x1") = .ok .undef := by
  constructor
  · have hne : ¬ (some ("/" ++ s) = some "") := by
      intro he
      have hd := congrArg String.data (Option.some.injEq _ _ ▸ he :
        ("/" ++ s) = "")
      rw [show ("/" ++ s).data = '/' :: s.data from by cases s; rfl] at hd
      cases hd
    unfold getValueByPointer
    rw [if_neg hne]
    unfold applyBasic
    simp only [if_neg hne, Bool.false_eq_true, ite_false, Option.getD_some]
    rw [splitSlash_slash s (isInteger_no_slash h)]
    simp only [List.headD, List.drop]
    rw [descend_single_digit ⟨true, false, false⟩ xs s _ _ h rfl]
    simp only [applyStdAtBasic]
    have ha : (("_get" : String) == "add") = false := by decide
    have hr : (("_get" : String) == "remove") = false := by decide
    have hp : (("_get" : String) == "replace") = false := by decide
    have ht : (("_get" : String) == "test") = false := by decide
    have hg : (("_get" : String) == "_get") = true := by decide
    simp only [ha, hr, hp, ht, hg, Bool.false_and, Bool.and_false,
      Bool.false_eq_true, ite_false, ite_true]
    simp only [arrRead, jsGet, toInt32_small hsmall]
    simp
  · rfl

/-- Witness for C9 at the array `[5]` with the leading-zero component
`00` and the non-digit component `x1`. -/
theorem c9_witness :
    getValueByPointer (.arr (JList.ofList [.num 5])) (some ("/" ++ "00")) =
      .ok (((JList.ofList [.num 5]).get? (digitsToNat "00")).getD .undef) ∧
    getValueByPointer (.arr (JList.ofList [.num 5])) (some "/x1") = .ok .undef :=
  c9_array_digit_components_resolve (JList.ofList [.num 5]) "00"
    (by decide) (by decide)

/-- C8 counterexample: at the root path with `resolve` unset, the
dispatch returns `operation.value` (7) even though the registered obj
handler determines 42, so it does not default to the handler's
semantics. -/
theorem c8_counterexample :
    applyOperation reg42 (.objL [("a", .num 1)])
      {op := "x", xid := some "x-f", path := some "", value := .num 7} =
      .ok ({newDocument := .num 7}, .objL [("a", .num 1)]) ∧
    cfg42.obj {op := "x", xid := some "x-f", path := some "", value := .num 7}
      (.objL [("a", .num 1)]) (.s "") (.objL [("a", .num 1)]) =
      .ok (some {newDocument := .num 42}) := by
  constructor
  · decide
  · rfl

/-- C8 amended: a root-path extended operation consults the registered
obj handler — short-circuiting on its result, with an `undefined` result
reverting to the original document — only when `resolve = true`; with
`resolve` unset it short-circuits to `operation.value` without invoking
the handler. -/
theorem c8_root_x_dispatch (reg : Registry) (cfg : XConfig) (op : Op)
    (d : JVal) (m b : Bool) (hx : op.op = "x") (hp : op.path = some "")
    (hr : regGet reg op.xid = some cfg) :
    applyOperation reg d op false m b =
      (if op.resolve then
        match cfg.obj op (if m then d else _deepClone d) (.s "")
            (if m then d else _deepClone d) with
        | .error e => .error (e, d)
        | .ok none => .ok ({newDocument := d}, d)
        | .ok (some r) => .ok (r, d)
      else .ok ({newDocument := op.value}, d)) := by
  unfold applyOperation
  simp only [hp, ite_true, if_pos rfl]
  unfold applyRootFull
  simp only [hx, hr]
  have h1 : (("x" : String) == "move") = false := by decide
  have h2 : (("x" : String) == "copy") = false := by decide
  have h3 : (("x" : String) == "x") = true := by decide
  simp only [h1, h2, h3, Bool.or_false, Bool.false_eq_true, ite_false, ite_true]

/-- Witness for C8: with `resolve = true` the same registered handler is
consulted and its replacement document 42 is returned. -/
theorem c8_witness :
    applyOperation reg42 (.objL [("a", .num 1)])
      {op := "x", xid := some "x-f", path := some "", value := .num 7,
       resolve := true} false true true =
      .ok ({newDocument := .num 42}, .objL [("a", .num 1)]) := by
  rw [c8_root_x_dispatch reg42 cfg42
    {op := "x", xid := some "x-f", path := some "", value := .num 7,
     resolve := true} (.objL [("a", .num 1)]) true true rfl rfl rfl]
  rfl

/-- `_deepClone` on an array document. -/
theorem _deepClone_arr (xs : JList) :
    _deepClone (.arr xs) = .arr (jcleanList xs) := rfl

/-- C7 counterexample: an extended operation on a map container whose
registered handler result carries a removed value, executed with
`resolve = true`, does not fail — the ambiguous-removal check exists only
on the array branch, so the prune is applied and the dispatch succeeds. -/
theorem c7_counterexample :
    applyOperation regRem (.objL [("a", .num 1)])
      {op := "x", xid := some "x-r", path := some "/a", resolve := true} =
      .ok ({newDocument := .objL []}, .objL []) := by
  decide

/-- C7 amended: on a list container the claim holds — an extended
operation executed with `resolve = true` whose handler result carries a
removed value fails with `OPERATION_X_AMBIGUOUS_REMOVAL` and leaves the
caller's document unchanged; map containers skip this check (see the
counterexample). -/
theorem c7_ambiguous_removal_on_arrays (reg : Registry) (cfg : XConfig)
    (xs : JList) (s xid : String) (r : OpResult) (m b : Bool)
    (hreg : reg xid = some cfg) (hint : isInteger s = true)
    (harr : ∀ o c k w, cfg.arr o c k w = .ok (some r))
    (hrem : r.removed ≠ .undef) :
    applyOperation reg (.arr xs)
      {op := "x", xid := some xid, path := some ("/" ++ s), resolve := true}
      false m b =
      .error (.patch .OPERATION_X_AMBIGUOUS_REMOVAL, .arr xs) := by
  have hne : ¬ (some ("/" ++ s) = some "") := by
    intro he
    have hd := congrArg String.data (Option.some.injEq _ _ ▸ he : ("/" ++ s) = "")
    rw [show ("/" ++ s).data = '/' :: s.data from by cases s; rfl] at hd
    cases hd
  unfold applyOperation
  simp only [if_neg hne, Bool.false_eq_true, ite_false, Option.getD_some]
  have hx : (("x" : String) == "x") = true := by decide
  simp only [hx, ite_true, regGet, hreg]
  rw [splitSlash_slash s (isInteger_no_slash hint)]
  simp only [List.headD, List.drop]
  cases m <;>
  · simp only [Bool.false_eq_true, ite_false, ite_true, _deepClone_arr]
    rw [descend_single_digit ⟨b, true, true⟩ _ s _ _ hint rfl]
    unfold applyFullAt
    simp only [hx, ite_true, regGet, hreg]
    unfold applyXAt
    simp only [harr, Bool.not_true, Bool.and_false, Bool.false_eq_true, ite_false]
    simp [hrem]

/-- Witness for C7 on the array `[1]` with the always-removing handler
registered as `x-r`. -/
theorem c7_witness :
    applyOperation regRem (.arr (JList.ofList [.num 1]))
      {op := "x", xid := some "x-r", path := some ("/" ++ "0"), resolve := true}
      false true true =
      .error (.patch .OPERATION_X_AMBIGUOUS_REMOVAL, .arr (JList.ofList [.num 1])) :=
  c7_ambiguous_removal_on_arrays regRem cfgRem (JList.ofList [.num 1]) "0" "x-r"
    {newDocument := .arrL [], removed := .num 1} true true rfl (by decide)
    (fun _ _ _ _ => rfl) (by decide)

/-- The array-branch key processing never yields the empty string key:
an empty component is all digits and is coerced to index 0 instead. -/
theorem arrKeyProc_ne_sEmpty {fl : WalkFlags} {v : Bool} {xs : JList}
    {key1 : Option String} {kv : JKey} {mk : Option String} {sent : Bool}
    (h : arrKeyProc fl v xs key1 = .ok (kv, mk, sent)) : kv ≠ .s "" := by
  unfold arrKeyProc at h
  split at h
  · cases h
  · split at h
    · cases h
      simp
    · split at h
      · cases h
        simp
      · split at h
        · cases h
        · split at h
          · cases h
          · split at h
            · split at h
              · cases h
              · cases h
                simp
            · next hni =>
              cases h
              intro hkk
              cases hkk
              exact hni (by decide)

/-- Reduction of `keyInfo` on an array container. -/
theorem keyInfo_arr (fl : WalkFlags) (v : Bool) (xs : JList)
    (key1 : Option String) (kRaw : String) (processed : List String)
    (gp : Option (List String)) :
    keyInfo fl v (.arr xs) key1 kRaw processed gp =
      (match arrKeyProc fl v xs key1 with
       | .error e => .error e
       | .ok (kv, mutKey, sent) =>
         .ok (kv, mutKey.getD kRaw,
           if sent && gp.isNone then some (processed ++ [mutKey.getD kRaw])
           else gp)) := rfl

/-- A successful walk only reaches an application point whose key is the
empty string when the last raw component of the pointer is empty. -/
theorem descend_ok_key_empty : ∀ (remaining : List String) (fl : WalkFlags)
    (vctx : Option VCtx) (document obj : JVal) (processed : List String)
    (steps : List JKey) (wroot : JVal) (gp : Option (List String))
    (epf : Option String) (ap : AppPoint),
    descend fl vctx document obj processed remaining steps wroot gp epf = .ok ap →
    ap.key = some (.s "") → remaining.getLast? = some ""
  | [], fl, vctx, document, obj, processed, steps, wroot, gp, epf, ap => by
    intro h hk
    rw [descend_nil] at h
    split at h
    · cases h
    · split at h
      · split at h
        · cases h
        · cases h
      · cases h
        simp at hk
  | [k], fl, vctx, document, obj, processed, steps, wroot, gp, epf, ap => by
    intro h hk
    rw [descend_last] at h
    cases obj
    case arr xs =>
      split at h
      · cases h
      · cases hKI : keyInfo fl vctx.isSome (JVal.arr xs) (some (unescKey k)) k processed gp with
        | error e =>
          rw [hKI] at h
          cases h
        | ok trip =>
          obtain ⟨kv, rawNew, gp'⟩ := trip
          rw [hKI] at h
          cases h
          simp only [Option.some.injEq] at hk
          exfalso
          rw [keyInfo_arr] at hKI
          cases harr2 : arrKeyProc fl vctx.isSome xs (some (unescKey k)) with
          | error e =>
            rw [harr2] at hKI
            cases hKI
          | ok trip2 =>
            obtain ⟨kv2, mk2, sent2⟩ := trip2
            rw [harr2] at hKI
            cases hKI
            exact arrKeyProc_ne_sEmpty harr2 hk
    all_goals
      split at h
      · cases h
      · cases h
        simp only [Option.map_some', Option.some.injEq, JKey.s.injEq] at hk
        have hke : k = "" := unescKey_empty hk
        simp [hke]
  | k :: k2 :: rest, fl, vctx, document, obj, processed, steps, wroot, gp, epf, ap => by
    intro h hk
    rw [descend_cons] at h
    split at h
    · cases h
    · split at h
      · cases h
      · split at h
        · cases h
        · split at h
          · cases h
          · rw [List.getLast?_cons_cons]
            exact descend_ok_key_empty (k2 :: rest) fl vctx document _ _ _ _ _ _ ap h hk

/-- With always-`undefined` handlers, a successful extended application
either leaves `newDocument` at the dispatcher's document or — only for an
empty-string key without `resolve` — short-circuits to `operation.value`. -/
theorem applyXAt_none_ok {cfg : XConfig} {op : Op} {m : Bool}
    {document : JVal} {ap : AppPoint} {res : OpResult} {cd : JVal}
    (ha : ∀ o c k w, cfg.arr o c k w = .ok none)
    (ho : ∀ o c k w, cfg.obj o c k w = .ok none)
    (h : applyXAt cfg op m document ap = .ok (res, cd)) :
    (res = {newDocument := document} ∧ cd = document) ∨
    (ap.key = some (.s "") ∧ op.resolve = false ∧
      res = {newDocument := op.value} ∧ cd = document) := by
  unfold applyXAt at h
  split at h
  · split at h
    · cases h
    · split at h
      · next hcond =>
        cases h
        right
        simp only [Bool.and_eq_true, beq_iff_eq, Bool.not_eq_true'] at hcond
        refine ⟨?_, hcond.2, rfl, rfl⟩
        simp_all
      · rw [ha] at h
        cases h
        left
        exact ⟨rfl, rfl⟩
  · split at h
    · cases h
    · split at h
      · next hcond =>
        cases h
        right
        simp only [Bool.and_eq_true, beq_iff_eq, Bool.not_eq_true'] at hcond
        refine ⟨?_, hcond.2, rfl, rfl⟩
        simp_all
      · rw [ho] at h
        cases h
        left
        exact ⟨rfl, rfl⟩

/-- Dropping the first element cannot introduce an empty last element. -/
theorem getLast_drop_one {l : List String} (h : l.getLast? ≠ some "") :
    (l.drop 1).getLast? ≠ some "" := by
  match l with
  | [] => simp
  | [x] => simp
  | x :: y :: t =>
    rw [List.getLast?_cons_cons] at h
    simpa using h

/-- C6 counterexample: a registered extended operation whose handlers
always return `undefined`, dispatched at the root path with `resolve`
unset, yields `operation.value` (7) as the new document — the handler is
never consulted and the result is not deep-equal to the pre-operation
document, so the no-op contract does not hold regardless of the flags. -/
theorem c6_counterexample :
    applyOperation regNone (.objL [("a", .num 1)])
      {op := "x", xid := some "x-n", path := some "", value := .num 7} =
      .ok ({newDocument := .num 7}, .objL [("a", .num 1)]) ∧
    _areEquals (.num 7) (.objL [("a", .num 1)]) = false := by
  decide

/-- C6 amended: a registered extended operation whose handlers always
return `undefined` leaves the returned `newDocument` deep-equal to the
pre-operation document provided that (root case) the path is `""` with
`resolve = true`, or (nested case) the path is non-root, the document is
either mutated in place or free of NaN/undefined (so its serialization
clone is itself), and the pointer does not end in an empty component
unless `resolve = true` (an empty final component short-circuits to
`operation.value`). -/
theorem c6_handler_undefined_noop (reg : Registry) (cfg : XConfig) (op : Op)
    (d : JVal) (m b : Bool) (res : OpResult) (cd : JVal)
    (hx : op.op = "x") (hreg : regGet reg op.xid = some cfg)
    (ha : ∀ o c k w, cfg.arr o c k w = .ok none)
    (ho : ∀ o c k w, cfg.obj o c k w = .ok none)
    (hpath : (op.path = some "" ∧ op.resolve = true) ∨
      (op.path ≠ some "" ∧ (m = true ∨ cloneFaithful d = true) ∧
        (op.resolve = true ∨ (splitSlash (op.path.getD "")).getLast? ≠ some "")))
    (hap : applyOperation reg d op false m b = .ok (res, cd)) :
    _areEquals res.newDocument d = true := by
  have hxx : (("x" : String) == "x") = true := by decide
  have h1 : (("x" : String) == "move") = false := by decide
  have h2 : (("x" : String) == "copy") = false := by decide
  unfold applyOperation at hap
  simp only [Bool.false_eq_true, ite_false] at hap
  rcases hpath with ⟨hp, hres⟩ | ⟨hp, hm, hlast⟩
  · rw [if_pos hp] at hap
    unfold applyRootFull at hap
    simp only [hx, hxx, h1, h2, Bool.or_false, Bool.false_eq_true, ite_false,
      ite_true, hreg, hres] at hap
    rw [ho] at hap
    cases hap
    exact _areEquals_self d
  · rw [if_neg hp] at hap
    simp only [hx, hxx, ite_true, hreg] at hap
    cases hd : descend ⟨b, true, op.resolve⟩ none
        (if m = true then d else _deepClone d)
        (_deepClone (if m = true then d else _deepClone d))
        [(splitSlash (op.path.getD "")).headD ""]
        (List.drop 1 (splitSlash (op.path.getD "")))
        [] (_deepClone (if m = true then d else _deepClone d)) none none with
    | error e =>
      rw [hd] at hap
      cases hap
    | ok ap =>
      rw [hd] at hap
      unfold applyFullAt at hap
      simp only [hx, hxx, ite_true, hreg] at hap
      cases hax : applyXAt cfg op m (if m = true then d else _deepClone d) ap with
      | error ed =>
        rw [hax] at hap
        obtain ⟨e0, d0⟩ := ed
        cases hap
      | ok rc =>
        obtain ⟨res0, d0⟩ := rc
        rw [hax] at hap
        cases hap
        rcases applyXAt_none_ok ha ho hax with ⟨hres0, -⟩ | ⟨hkey, hresF, -, -⟩
        · rw [hres0]
          cases m with
          | true => exact _areEquals_self d
          | false =>
            have hf : cloneFaithful d = true := by
              rcases hm with hm | hm
              · cases hm
              · exact hm
            simp only [Bool.false_eq_true, ite_false]
            rw [_deepClone_faithful hf]
            exact _areEquals_self d
        · rcases hlast with hres | hlast
          · rw [hres] at hresF
            cases hresF
          · exact absurd
              (descend_ok_key_empty _ _ _ _ _ _ _ _ _ _ _ hd hkey)
              (getLast_drop_one hlast)

/-- Witness for C6: the always-`undefined` handler registered as `x-n`
applied at `/a` to `{"a": 1}` in place leaves the document deep-equal. -/
theorem c6_witness :
    _areEquals (OpResult.newDocument {newDocument := .objL [("a", .num 1)]})
      (.objL [("a", .num 1)]) = true :=
  c6_handler_undefined_noop regNone cfgNone
    {op := "x", xid := some "x-n", path := some "/a"}
    (.objL [("a", .num 1)]) true true {newDocument := .objL [("a", .num 1)]}
    (.objL [("a", .num 1)]) rfl rfl (fun _ _ _ _ => rfl) (fun _ _ _ _ => rfl)
    (Or.inr ⟨by decide, Or.inl rfl, Or.inr (by decide)⟩) (by decide)

/-- C4 counterexample: three failures of the original claim.  Copying
`/s` (the subtree `{"n": NaN}`) to `/d` places the serialization clone
`{"n": null}`, not deep-equal to the source subtree.  Copying `/a` to the
overlapping destination `/a/b` on `{"a": {"b": 1}}` writes inside the
source subtree, so the value at `from` afterwards is no longer
`{"b": 1}`.  And a root-destination copy returns the subtree at `from`
itself — its nested NaN intact, where the serialization clone would
differ — so no independent copy is made at the root. -/
theorem c4_counterexample :
    (applyOperation reg0 (.objL [("s", .objL [("n", .nan)])])
      {op := "copy", path := some "/d", fromPath := some "/s"} =
      .ok ({newDocument := .objL [("s", .objL [("n", .nan)]), ("d", .objL [("n", .null)])]},
           .objL [("s", .objL [("n", .nan)]), ("d", .objL [("n", .null)])]) ∧
     _areEquals (.objL [("n", .null)]) (.objL [("n", .nan)]) = false) ∧
    (applyOperation reg0 (.objL [("a", .objL [("b", .num 1)])])
      {op := "copy", path := some "/a/b", fromPath := some "/a"} =
      .ok ({newDocument := .objL [("a", .objL [("b", .objL [("b", .num 1)])])]},
           .objL [("a", .objL [("b", .objL [("b", .num 1)])])]) ∧
     getValueByPointer (.objL [("a", .objL [("b", .objL [("b", .num 1)])])])
       (some "/a") ≠ .ok (.objL [("b", .num 1)])) ∧
    (applyOperation reg0 (.objL [("s", .objL [("n", .nan)])])
      {op := "copy", path := some "", fromPath := some "/s"} =
      .ok ({newDocument := .objL [("n", .nan)]}, .objL [("s", .objL [("n", .nan)])]) ∧
     _deepClone (.objL [("n", .nan)]) ≠ .objL [("n", .nan)]) := by
  decide

/-- C4 amended: for every registry, document and pointers, a `copy` to a
non-root destination whose walk resolves, with a resolvable `from`, is
exactly an `add` at `path` of the serialization deep clone (`_deepClone`)
of the value read at `from`: the placed value is an independent value,
not an alias, and it is deep-equal to the source at the moment of the
operation whenever that subtree contains no NaN-class or undefined
value.  (The subtree at `from` is not in general unchanged — a
destination inside it rewrites it — and a root destination receives the
subtree without cloning, as the counterexample shows.) -/
theorem c4_copy_clones_value (reg : Registry) (d w : JVal) (p f : Option String)
    (ap : AppPoint) (hp : ¬ p = some "")
    (hD : descend ⟨true, false, false⟩ none d d
        [(splitSlash (p.getD "")).headD ""] ((splitSlash (p.getD "")).drop 1)
        [] d none none = .ok ap)
    (hget : getValueByPointer d f = .ok w) :
    (applyOperation reg d {op := "copy", path := p, fromPath := f} false true true
      = match applyBasic noValidate false d
            {op := "add", path := p, value := _deepClone w} with
        | .error ed => .error ed
        | .ok (_, d2) => .ok ({newDocument := d2}, d2)) ∧
    (cloneFaithful w = true → _areEquals (_deepClone w) w = true) := by
  constructor
  · unfold applyOperation
    have hx : (("copy" : String) == "x") = false := rfl
    simp only [Bool.false_eq_true, if_false, if_neg hp, if_true, hx]
    rw [hD]
    show (match applyFullAt reg {op := "copy", path := p, fromPath := f} true d ap false with
          | Except.error (e, d2) => Except.error (e, d2)
          | Except.ok (res, d2) => Except.ok (res, d2)) = _
    rw [show applyFullAt reg {op := "copy", path := p, fromPath := f} true d ap false
          = copyImpl d {op := "copy", path := p, fromPath := f} from rfl]
    unfold copyImpl
    simp only [hget]
    cases hB : applyBasic noValidate false d {op := "add", path := p, value := _deepClone w} with
    | error ed =>
      obtain ⟨e, dd⟩ := ed
      rfl
    | ok rd =>
      obtain ⟨res, dd⟩ := rd
      rfl
  · intro hf
    rw [_deepClone_faithful hf]
    exact _areEquals_self w

/-- C4 witness: copying `/a` to `/b` on `{"a": 3}` is the add of the
clone of `3`, and the scalar source is faithfully cloned. -/
theorem c4_witness :
    (¬ (some "/b" : Option String) = some "") ∧
    cloneFaithful (.num 3) = true ∧
    (applyOperation reg0 (.objL [("a", .num 3)])
        {op := "copy", path := some "/b", fromPath := some "/a"} false true true
      = match applyBasic noValidate false (.objL [("a", .num 3)])
            {op := "add", path := some "/b", value := _deepClone (.num 3)} with
        | .error ed => .error ed
        | .ok (_, d2) => .ok ({newDocument := d2}, d2)) ∧
    _areEquals (_deepClone (.num 3)) (.num 3) = true :=
  ⟨by decide, by decide,
   (c4_copy_clones_value reg0 (.objL [("a", .num 3)]) (.num 3) (some "/b")
     (some "/a")
     ⟨.objL [("a", .num 3)], some (.s "b"), [], ["", "b"], none,
      .objL [("a", .num 3)]⟩
     (by decide) (by rfl) (by rfl)).1,
   (c4_copy_clones_value reg0 (.objL [("a", .num 3)]) (.num 3) (some "/b")
     (some "/a")
     ⟨.objL [("a", .num 3)], some (.s "b"), [], ["", "b"], none,
      .objL [("a", .num 3)]⟩
     (by decide) (by rfl) (by rfl)).2 (by decide)⟩

/-- For a standard (non-extended) unvalidated walk, array key processing
never throws, never rewrites the `keys` entry and never records a graft
path. -/
theorem arrKeyProc_nonx {fl : WalkFlags} (hfl : fl.isX = false) (xs : JList)
    (k1 : String) :
    ∃ kv, arrKeyProc fl false xs (some k1) = .ok (kv, none, false) := by
  unfold arrKeyProc
  rw [hfl]
  simp only [Bool.false_and, Bool.false_eq_true, ite_false, Bool.false_or]
  split
  · exact ⟨_, rfl⟩
  · split
    · exact ⟨_, rfl⟩
    · exact ⟨_, rfl⟩

/-- The guard test of a walk step coincides with `protoViolation`. -/
theorem guardCheck_eq_protoViolation (prev k : String) :
    guardCheck true (some (unescKey k)) (some prev) = protoViolation prev k := by
  unfold guardCheck protoViolation
  rw [Bool.true_and]
  rfl

/-- For a standard (non-extended) unvalidated walk, key processing always
succeeds and keeps the raw component and graft path unchanged. -/
theorem keyInfo_nonx_ok (fl : WalkFlags) (hfl : fl.isX = false) (obj : JVal)
    (k1 : String) (kRaw : String) (processed : List String)
    (gp : Option (List String)) :
    ∃ kv, keyInfo fl false obj (some k1) kRaw processed gp = .ok (kv, kRaw, gp) := by
  cases obj
  case arr xs =>
    obtain ⟨kv, harr⟩ := arrKeyProc_nonx hfl xs k1
    refine ⟨kv, ?_⟩
    rw [keyInfo_arr, harr]
    simp
  all_goals exact ⟨jkeyOfOpt (some k1), rfl⟩

/-- Without inline validation the bookkeeping step is the identity. -/
theorem epfStep_none (epf : Option String) (obj : JVal)
    (key1 : Option String) (isLast : Bool) (processed : List String) :
    epfStep none epf obj key1 isLast processed = .ok epf := rfl

/-- For a standard walk the resolution step is a plain property read. -/
theorem xResolveStep_nonx (fl : WalkFlags) (hfl : fl.isX = false)
    (document obj : JVal) (kv : JKey) (rawNew : String)
    (processed : List String) (steps : List JKey) (wroot : JVal)
    (gp1 : Option (List String)) (nextRaw : String) :
    xResolveStep fl document obj kv rawNew processed steps wroot gp1 nextRaw =
      (match jsGet obj kv with
       | .error e => .error e
       | .ok v => .ok (v, wroot, gp1)) := by
  unfold xResolveStep
  rw [hfl]
  simp

/-- A standard unvalidated walk under the default prototype guard throws
a `TypeError` whenever some remaining component (checked against its raw
predecessor) violates the guard: either the guard itself fires, or the
walk dies earlier dereferencing through `undefined`/`null` — also a
`TypeError` — and in both cases before any write. -/
theorem descend_proto_typeError : ∀ (remaining : List String) (prev : String)
    (r : Bool) (document obj : JVal) (processed : List String)
    (steps : List JKey) (wroot : JVal) (gp : Option (List String))
    (epf : Option String),
    processed.getLast? = some prev →
    badFrom prev remaining = true →
    descend ⟨true, false, r⟩ none document obj processed remaining steps
      wroot gp epf = .error .typeError
  | [], prev, r, document, obj, processed, steps, wroot, gp, epf => by
    intro _ hbad
    cases hbad
  | [k], prev, r, document, obj, processed, steps, wroot, gp, epf => by
    intro hlast hbad
    have hpv : protoViolation prev k = true := by
      simp only [badFrom, Bool.or_false] at hbad
      exact hbad
    rw [descend_last]
    unfold preChecks
    rw [hlast, guardCheck_eq_protoViolation, hpv]
    rfl
  | k :: k2 :: rest, prev, r, document, obj, processed, steps, wroot, gp, epf => by
    intro hlast hbad
    unfold badFrom at hbad
    rw [descend_cons]
    unfold preChecks
    rw [hlast, guardCheck_eq_protoViolation]
    cases hpv : protoViolation prev k with
    | true => rfl
    | false =>
      have hbad2 : badFrom k (k2 :: rest) = true := by
        rw [hpv] at hbad
        simpa using hbad
      rw [if_neg (by simp)]
      rw [epfStep_none]
      simp only [Option.isSome_none]
      obtain ⟨kv, hki⟩ :=
        keyInfo_nonx_ok ⟨true, false, r⟩ rfl obj (unescKey k) k processed gp
      simp only [hki, xResolveStep_nonx ⟨true, false, r⟩ rfl]
      cases hjg : jsGet obj kv with
      | error e =>
        obtain rfl := jsGet_error hjg
        rfl
      | ok v =>
        simp only [Bool.false_and, Bool.false_eq_true, if_false]
        exact descend_proto_typeError (k2 :: rest) k r document v
          (processed ++ [k]) (steps ++ [kv]) wroot gp epf
          (by rw [List.getLast?_concat]) hbad2

/-- C3 counterexample: the claim quantifies over every operation, but an
`x` operation with an unregistered extension id and the banned path
`/__proto__/p` fails the registry lookup (core.mjs line 254-262) before
the prototype guard is ever reached, raising the domain error
`OPERATION_X_OP_INVALID` instead of a fatal type error. -/
theorem c3_counterexample :
    applyOperation reg0 (.objL [])
      {op := "x", xid := some "x-u", path := some "/__proto__/p",
       value := .num 1} false true true
      = .error (.patch .OPERATION_X_OP_INVALID, .objL []) := by
  decide

/-- C3 (amended): for every document, every non-`x` operation whose path
contains a component `__proto__`, or a component `prototype` immediately
preceded by a raw component `constructor`, and either mutation mode,
`applyOperation` with `banPrototypeModifications = true` raises a fatal
`TypeError` and the value seen through the caller's reference is the
unchanged original document.  (`x` operations are excluded: an
unregistered extension id throws `OPERATION_X_OP_INVALID` before the
guard runs, as the counterexample shows.) -/
theorem c3_nonx_proto_guard (reg : Registry) (d : JVal) (op : Op) (m : Bool)
    (hop : op.op ≠ "x")
    (hb : badKeys (splitSlash (op.path.getD "")) = true) :
    applyOperation reg d op false m true = .error (.typeError, d) := by
  have hroot : ¬ (op.path = some "") := by
    intro h
    rw [h] at hb
    exact absurd hb (by decide)
  have hbe : (op.op == "x") = false := beq_eq_false_iff_ne.mpr hop
  cases hk : splitSlash (op.path.getD "") with
  | nil =>
    rw [hk] at hb
    exact absurd hb (by decide)
  | cons k0 rest =>
    have hb2 : badFrom k0 rest = true := by
      rw [hk] at hb
      exact hb
    unfold applyOperation
    simp only [Bool.false_eq_true, if_false, hbe, if_neg hroot, hk,
      List.headD_cons, List.drop_succ_cons, List.drop_zero]
    rw [descend_proto_typeError rest k0 op.resolve
      (if m then d else _deepClone d) (if m then d else _deepClone d)
      [k0] [] (if m then d else _deepClone d) none none (by simp) hb2]

/-- C3 witness: adding at `/constructor/prototype` on the empty object
document hits the guard and throws a `TypeError`, leaving the caller's
document unchanged. -/
theorem c3_witness :
    applyOperation reg0 (.objL [])
      {op := "add", path := some "/constructor/prototype", value := .num 1}
      false true true = .error (.typeError, .objL []) :=
  c3_nonx_proto_guard reg0 (.objL [])
    {op := "add", path := some "/constructor/prototype", value := .num 1}
    true (by decide) (by decide)

/-- The pairing of an extended root dispatch outcome with the caller's
document, for any handler result. -/
theorem callerView_xmatch (d : JVal) (r : Except JsErr (Option OpResult)) :
    callerView (match r with
      | .error e => .error (e, d)
      | .ok none => .ok ({newDocument := d}, d)
      | .ok (some res) => .ok (res, d)) = d := by
  rcases r with e | (_ | res) <;> rfl

/-- Every branch of the root basic dispatch pairs its outcome with the
document it was handed. -/
theorem callerView_applyRootBasic (op : Op) (v : Bool) (d : JVal) :
    callerView (applyRootBasic op v d) = d := by
  unfold applyRootBasic
  repeat' split
  all_goals rfl

/-- Every branch of the full root dispatch pairs its outcome with the
document it was handed. -/
theorem callerView_applyRootFull (reg : Registry) (op : Op) (v m : Bool)
    (d : JVal) : callerView (applyRootFull reg op v m d) = d := by
  unfold applyRootFull
  split
  · split <;> rfl
  · split
    · split
      · rfl
      · repeat' split
        all_goals first | rfl | exact callerView_xmatch d _
    · apply callerView_applyRootBasic

/-- C2: with `mutateDocument = false` the dispatcher deep-clones the
document once before traversal (core.mjs line 241-243) and every write
acts on the clone, so the value seen through the caller's reference after
any dispatch — success or error, validated or not — is the untouched
original; and concretely, applying `[{op: add, path: "/a/c", value: 2}]`
to `{"a": {"b": 1}}` with `mutate = false` returns the new document
`{"a": {"b": 1, "c": 2}}`. -/
theorem c2_mutate_false_preserves_caller (reg : Registry) (d : JVal)
    (op : Op) (v b : Bool) :
    callerView (applyOperation reg d op v false b) = d ∧
    applyPatch reg0 (.objL [("a", .objL [("b", .num 1)])])
      [{op := "add", path := some "/a/c", value := .num 2}] false false true =
      .ok ([{newDocument := .objL [("a", .objL [("b", .num 1), ("c", .num 2)])]}],
           .objL [("a", .objL [("b", .num 1), ("c", .num 2)])]) := by
  refine ⟨?_, by decide⟩
  unfold applyOperation
  split
  · rfl
  · split
    · apply callerView_applyRootFull
    · simp only [Bool.false_eq_true, if_false]
      split
      · rfl
      · split
        · rfl
        · split
          · rfl
          · rfl

/-- The final wrapper of `validate` maps a `PatchError`-class failure to a
returned value, so a raised `PatchError` can never surface. -/
theorem validate_wrap_no_patch (r : Except JsErr Unit) (k : ErrName) :
    (match r with
      | .ok _ => (Except.ok none : Except JsErr (Option ErrName))
      | .error (.patch k1) => .ok (some k1)
      | .error .typeError => .error .typeError) ≠ .error (.patch k) := by
  cases r with
  | error e => cases e <;> simp
  | ok u => simp

/-- C5: `validate` never raises a domain (`PatchError`-class) failure:
whenever the validating dry run fails with a domain error of kind `k`,
`validate` returns it as the value `.ok (some k)`, while a non-domain
failure (`TypeError`) propagates as a raised exception; concretely,
validating `[{op: replace, path: "/missing", value: 1}]` against `{}`
returns the `OPERATION_PATH_UNRESOLVABLE` kind rather than raising. -/
theorem c5_validate_captures_domain_errors (reg : Registry) (seq : List Op)
    (d : JVal) (docO : Option JVal) :
    (∀ k, validate reg seq docO ≠ .error (.patch k)) ∧
    (truthy d = true →
      ∀ k d2, applyPatch reg (_deepClone d) (seq.map cloneOp) true true true
          = .error (.patch k, d2) →
        validate reg seq (some d) = .ok (some k)) ∧
    (truthy d = true →
      ∀ d2, applyPatch reg (_deepClone d) (seq.map cloneOp) true true true
          = .error (.typeError, d2) →
        validate reg seq (some d) = .error .typeError) ∧
    validate reg0 [{op := "replace", path := some "/missing", value := .num 1}]
      (some (.objL [])) = .ok (some .OPERATION_PATH_UNRESOLVABLE) := by
  refine ⟨fun k => validate_wrap_no_patch _ k, ?_, ?_, by decide⟩
  · intro ht k d2 happ
    simp only [validate, ht, happ, if_true]
  · intro ht d2 happ
    simp only [validate, ht, happ, if_true]

/-- C5 witness: the replace-at-missing-path scenario, with a truthy
document, returns the unresolvable-path kind as a value. -/
theorem c5_witness :
    truthy (.objL []) = true ∧
    validate reg0 [{op := "replace", path := some "/missing", value := .num 1}]
      (some (.objL [])) = .ok (some .OPERATION_PATH_UNRESOLVABLE) :=
  ⟨by decide,
   (c5_validate_captures_domain_errors reg0
     [{op := "replace", path := some "/missing", value := .num 1}]
     (.objL []) (some (.objL []))).2.1 (by decide) .OPERATION_PATH_UNRESOLVABLE
     (.objL []) (by decide)⟩

/-- At any application point, when the `_get` primitive (as wrapped by
`getValueByPointer`) succeeds with value `w`, the `test` primitive at the
same point succeeds with `test: true` exactly when `_areEquals w
operation.value` holds and otherwise throws `TEST_OPERATION_FAILED`, in
both cases leaving the document untouched. -/
theorem applyStdAtBasic_test_of_get (ptr : Option String) (d w v : JVal)
    (ap : AppPoint)
    (h : (match applyStdAtBasic {op := "_get", path := ptr} d ap false with
          | .ok (res, _) => Except.ok res.gotten
          | .error (e, _) => Except.error e) = .ok w) :
    applyStdAtBasic {op := "test", path := ptr, value := v} d ap false =
      (if _areEquals w v = true then
        .ok ({newDocument := d, test := some true}, d)
       else .error (.patch .TEST_OPERATION_FAILED, d)) := by
  obtain ⟨aobj, akey, asteps, aproc, agp, awroot⟩ := ap
  have e1 : (("_get" : String) == "add") = false := rfl
  have e2 : (("_get" : String) == "remove") = false := rfl
  have e3 : (("_get" : String) == "replace") = false := rfl
  have e4 : (("_get" : String) == "test") = false := rfl
  have e5 : (("_get" : String) == "_get") = true := rfl
  cases aobj with
  | arr xs =>
    cases akey with
    | none => simp [applyStdAtBasic] at h
    | some kv =>
      simp only [applyStdAtBasic] at h ⊢
      simp at h
      rw [h]
      rfl
  | undef =>
    simp only [applyStdAtBasic, e1, e2, e3, e4, e5, Bool.false_and,
      Bool.false_eq_true, if_false, if_true] at h ⊢
    split at h
    next res snd heq =>
      split at heq
      · exact absurd heq (by simp)
      next v1 heq2 =>
        simp only [Except.ok.injEq, Prod.mk.injEq] at heq
        obtain ⟨hres, hsnd⟩ := heq
        subst hres
        simp only [Except.ok.injEq] at h
        subst h
        rfl
    next e2 snd heq => exact absurd h (by simp)
  | null =>
    simp only [applyStdAtBasic, e1, e2, e3, e4, e5, Bool.false_and,
      Bool.false_eq_true, if_false, if_true] at h ⊢
    split at h
    next res snd heq =>
      split at heq
      · exact absurd heq (by simp)
      next v1 heq2 =>
        simp only [Except.ok.injEq, Prod.mk.injEq] at heq
        obtain ⟨hres, hsnd⟩ := heq
        subst hres
        simp only [Except.ok.injEq] at h
        subst h
        rfl
    next e2 snd heq => exact absurd h (by simp)
  | bool b =>
    simp only [applyStdAtBasic, e1, e2, e3, e4, e5, Bool.false_and,
      Bool.false_eq_true, if_false, if_true] at h ⊢
    split at h
    next res snd heq =>
      split at heq
      · exact absurd heq (by simp)
      next v1 heq2 =>
        simp only [Except.ok.injEq, Prod.mk.injEq] at heq
        obtain ⟨hres, hsnd⟩ := heq
        subst hres
        simp only [Except.ok.injEq] at h
        subst h
        rfl
    next e2 snd heq => exact absurd h (by simp)
  | num n =>
    simp only [applyStdAtBasic, e1, e2, e3, e4, e5, Bool.false_and,
      Bool.false_eq_true, if_false, if_true] at h ⊢
    split at h
    next res snd heq =>
      split at heq
      · exact absurd heq (by simp)
      next v1 heq2 =>
        simp only [Except.ok.injEq, Prod.mk.injEq] at heq
        obtain ⟨hres, hsnd⟩ := heq
        subst hres
        simp only [Except.ok.injEq] at h
        subst h
        rfl
    next e2 snd heq => exact absurd h (by simp)
  | nan =>
    simp only [applyStdAtBasic, e1, e2, e3, e4, e5, Bool.false_and,
      Bool.false_eq_true, if_false, if_true] at h ⊢
    split at h
    next res snd heq =>
      split at heq
      · exact absurd heq (by simp)
      next v1 heq2 =>
        simp only [Except.ok.injEq, Prod.mk.injEq] at heq
        obtain ⟨hres, hsnd⟩ := heq
        subst hres
        simp only [Except.ok.injEq] at h
        subst h
        rfl
    next e2 snd heq => exact absurd h (by simp)
  | str t =>
    simp only [applyStdAtBasic, e1, e2, e3, e4, e5, Bool.false_and,
      Bool.false_eq_true, if_false, if_true] at h ⊢
    split at h
    next res snd heq =>
      split at heq
      · exact absurd heq (by simp)
      next v1 heq2 =>
        simp only [Except.ok.injEq, Prod.mk.injEq] at heq
        obtain ⟨hres, hsnd⟩ := heq
        subst hres
        simp only [Except.ok.injEq] at h
        subst h
        rfl
    next e2 snd heq => exact absurd h (by simp)
  | obj mm =>
    simp only [applyStdAtBasic, e1, e2, e3, e4, e5, Bool.false_and,
      Bool.false_eq_true, if_false, if_true] at h ⊢
    split at h
    next res snd heq =>
      split at heq
      · exact absurd heq (by simp)
      next v1 heq2 =>
        simp only [Except.ok.injEq, Prod.mk.injEq] at heq
        obtain ⟨hres, hsnd⟩ := heq
        subst hres
        simp only [Except.ok.injEq] at h
        subst h
        rfl
    next e2 snd heq => exact absurd h (by simp)

/-- C1: for every document, pointer and value, when the library's own
reader `getValueByPointer` finds `w` at the pointer, a `test` operation
dispatched at that pointer succeeds (returning `test: true` and the
unchanged document) exactly when `_areEquals w value` holds, and raises
`TEST_OPERATION_FAILED` exactly when it does not; `_areEquals` is
order-insensitive for maps, order- and length-sensitive for lists, and
treats two NaN-class values as equal. -/
theorem c1_test_iff_deep_equal (reg : Registry) (d w v : JVal)
    (ptr : Option String)
    (hget : getValueByPointer d ptr = .ok w) :
    (applyOperation reg d {op := "test", path := ptr, value := v} false true true
      = (if _areEquals w v = true then
          .ok ({newDocument := d, test := some true}, d)
         else .error (.patch .TEST_OPERATION_FAILED, d))) ∧
    _areEquals (.objL [("a", .num 1), ("b", .num 2)])
      (.objL [("b", .num 2), ("a", .num 1)]) = true ∧
    _areEquals (.arrL [.num 1, .num 2, .num 3])
      (.arrL [.num 1, .num 2, .num 3]) = true ∧
    _areEquals (.arrL [.num 1, .num 2]) (.arrL [.num 2, .num 1]) = false ∧
    _areEquals .nan .nan = true := by
  refine ⟨?_, by decide, by decide, by decide, by decide⟩
  by_cases hp : ptr = some ""
  · subst hp
    unfold getValueByPointer at hget
    rw [if_pos rfl] at hget
    injection hget with h
    subst h
    rfl
  · unfold getValueByPointer at hget
    rw [if_neg hp] at hget
    unfold applyBasic at hget
    simp only [Bool.false_eq_true, if_false, if_neg hp] at hget
    unfold applyOperation
    have hx : (("test" : String) == "x") = false := rfl
    simp only [Bool.false_eq_true, if_false, if_neg hp, if_true, hx] at hget ⊢
    cases hD : descend { ban := true, isX := false, resolve := false } none d d
        [(splitSlash (ptr.getD "")).headD ""]
        (List.drop 1 (splitSlash (ptr.getD ""))) [] d none none with
    | error e =>
      rw [hD] at hget
      simp at hget
    | ok ap =>
      rw [hD] at hget
      show (match applyFullAt reg {op := "test", path := ptr, value := v} true d ap false with
            | Except.error (e, d2) => Except.error (e, d2)
            | Except.ok (res, d2) => Except.ok (res, d2)) = _
      rw [show applyFullAt reg {op := "test", path := ptr, value := v} true d ap false
            = applyStdAtBasic {op := "test", path := ptr, value := v} d ap false from rfl]
      rw [applyStdAtBasic_test_of_get ptr d w v ap hget]
      cases hae : _areEquals w v <;> rfl

/-- C1 witness: testing the root of `{"a": 1, "b": 2}` against the
key-reordered `{"b": 2, "a": 1}` succeeds. -/
theorem c1_witness :
    getValueByPointer (.objL [("a", .num 1), ("b", .num 2)]) (some "")
      = .ok (.objL [("a", .num 1), ("b", .num 2)]) ∧
    applyOperation reg0 (.objL [("a", .num 1), ("b", .num 2)])
      {op := "test", path := some "",
       value := .objL [("b", .num 2), ("a", .num 1)]} false true true
      = (if _areEquals (.objL [("a", .num 1), ("b", .num 2)])
            (.objL [("b", .num 2), ("a", .num 1)]) = true then
          .ok ({newDocument := .objL [("a", .num 1), ("b", .num 2)],
                test := some true}, .objL [("a", .num 1), ("b", .num 2)])
         else .error (.patch .TEST_OPERATION_FAILED,
                      .objL [("a", .num 1), ("b", .num 2)])) :=
  ⟨by decide,
   (c1_test_iff_deep_equal reg0 (.objL [("a", .num 1), ("b", .num 2)])
     (.objL [("a", .num 1), ("b", .num 2)])
     (.objL [("b", .num 2), ("a", .num 1)]) (some "") (by decide)).1⟩

end JsonPatch


